import Mathlib

/-!
# Port forwarder (main.go): embedding and verification

The Go program starts one listener goroutine per configured rule
(`startPortForward`), one handler goroutine per accepted connection
(`handleConnection`) and two relay goroutines per connection pair (`copyData`).

Every goroutine is embedded as a step function on an explicit program counter.
What the operating system and the Go runtime answer (the result of `net.Listen`,
of `listener.Accept`, of `net.Dial`, of `io.Copy`, whether `ctx.Done()` is ready)
is an input of the step. The effects of the program (library calls, log lines,
goroutine starts, channel operations) are recorded, in order, in a trace.
-/

namespace PortForwarder

/-! ## Data model -/

/-- The type `PortForward` of main.go (lines 23-28): one forwarding rule. -/
structure PortForward where
  LocalPort : Int
  RemoteAddr : String
  RemotePort : Int
  ProtocolType : String
deriving DecidableEq, Repr

/-- A Go `error` value: `io.EOF` or any other error, with the text that
`err.Error()` returns. -/
inductive GoError where
  | EOF
  | other (text : String)
deriving DecidableEq, Repr

/-- The method `err.Error()`. -/
def GoError.Error : GoError → String
  | .EOF => "EOF"
  | .other text => text

/-- Identity of a `net.Conn` value. -/
abbrev ConnId := Nat

/-- One byte of relayed traffic. -/
abbrev Byte := UInt8

/-- The text of `net.ErrClosed.Error()`, which is also the literal that
`copyData` searches for (line 154). -/
def ErrClosedText : String := "use of closed network connection"

/-- Whether `sub` stands at the head of `s`. -/
def hasLeading : List Char → List Char → Bool
  | [], _ => true
  | _ :: _, [] => false
  | a :: as, b :: bs => a == b && hasLeading as bs

/-- Whether `sub` occurs somewhere inside `s`. -/
def containsChars : List Char → List Char → Bool
  | [], sub => hasLeading sub []
  | c :: cs, sub => hasLeading sub (c :: cs) || containsChars cs sub

/-- The function `strings.Contains(s, substr)`. -/
def stringsContains (s substr : String) : Bool :=
  containsChars s.data substr.data

/-- The test `strings.Contains(err.Error(), net.ErrClosed.Error())` of line 102
and line 154. -/
def isClosedError (e : GoError) : Bool :=
  stringsContains e.Error ErrClosedText

/-- Rendering of an `int` by the verb `%v`: decimal digits with a leading minus
sign for negative values. -/
def fmtInt (n : Int) : String := toString n

/-- Line 71: `fmt.Sprintf(":%v", pf.LocalPort)`. -/
def sourcePort (pf : PortForward) : String :=
  ":" ++ fmtInt pf.LocalPort

/-- Line 72: `fmt.Sprintf("%s:%v", pf.RemoteAddr, pf.RemotePort)`. -/
def destinationAddress (pf : PortForward) : String :=
  pf.RemoteAddr ++ ":" ++ fmtInt pf.RemotePort

/-- Observable effects of the program, one constructor per kind of statement.
Log lines carry their format string as written in main.go. -/
inductive Event where
  | listen (network address : String)
  | fatalf (format : String)
  | printf (format : String)
  | signalNotify
  | goSignalWatcher
  | accept (conn : Option ConnId)
  | goHandleConnection (clientConn : ConnId) (destinationAddress : String)
  | closeListener
  | dial (network address : String)
  | makeDoneChan
  | goCopyData (dst src : ConnId)
  | closeConn (c : ConnId)
  | read (src : ConnId) (data : List Byte)
  | write (dst : ConnId) (data : List Byte)
  | sendDoneChan
  | recvDoneChan
deriving DecidableEq, Repr

/-! ## The listener goroutine: `startPortForward` (lines 70-113) -/

/-- What `listener.Accept()` returns (line 100). -/
inductive AcceptResult where
  | conn (c : ConnId)
  | err (e : GoError)
deriving DecidableEq, Repr

/-- What the environment answers to the listener goroutine at its next
statement: the error of `net.Listen` (line 74), whether `ctx.Done()` is
ready at the `select` (line 96), and the result of `listener.Accept()`
(line 100). Each step reads only the field its statement needs. -/
structure Obs where
  listenErr : Option GoError
  ctxDone : Bool
  accept : AcceptResult
deriving DecidableEq, Repr

/-- The observations available once the shutdown signal has fired for a rule:
the context is cancelled (line 90) and the listener is closed (line 91), so
that `Accept` fails with an error whose text contains `net.ErrClosed`. -/
def Obs.shutdownFired (o : Obs) : Bool :=
  o.ctxDone &&
    (match o.accept with
     | .err e => isClosedError e
     | .conn _ => false)

/-- Program counter of `startPortForward`. -/
inductive ListenerPC where
  | start                      -- before `net.Listen` (line 74)
  | loopTop                    -- at the `select` (line 95)
  | accepting                  -- inside `listener.Accept()` (line 100)
  | accepted (c : ConnId)      -- `Accept` returned `c`, lines 109-110 pending
  | returned                   -- the function returned, the deferred close ran
  | exited                     -- `log.Fatalf` ended the process (line 76)
deriving DecidableEq, Repr

/-- State of one `startPortForward` goroutine. -/
structure ListenerState where
  pc : ListenerPC
  trace : List Event
deriving DecidableEq, Repr

/-- The goroutine before its first statement. -/
def ListenerState.init : ListenerState := ⟨.start, []⟩

/-- One statement of `startPortForward`. -/
def startPortForwardStep (pf : PortForward) (o : Obs) (s : ListenerState) : ListenerState :=
  match s.pc with
  | .start =>
    match o.listenErr with
    | some _ =>
      -- lines 74-77: `log.Fatalf` prints and calls `os.Exit(1)`
      ⟨.exited, s.trace ++ [.listen "tcp" (sourcePort pf),
        .fatalf "Failed to listen on %s: %v"]⟩
    | none =>
      -- lines 78-92: deferred close registered, signal watcher started
      ⟨.loopTop, s.trace ++ [.listen "tcp" (sourcePort pf),
        .printf "PID %d: Listening on %s and forwarding to %s",
        .signalNotify, .goSignalWatcher]⟩
  | .loopTop =>
    if o.ctxDone then
      -- lines 96-98, then the deferred `listener.Close()` of line 79
      ⟨.returned, s.trace ++
        [.printf "PID %d: Context cancelled, shutting down listener on %s",
         .closeListener]⟩
    else
      -- `default:` branch, about to call `listener.Accept()`
      ⟨.accepting, s.trace⟩
  | .accepting =>
    match o.accept with
    | .err e =>
      if isClosedError e then
        -- lines 102-105, then the deferred `listener.Close()`
        ⟨.returned, s.trace ++ [.accept none,
          .printf "PID %d: Temporary accept error: %v", .closeListener]⟩
      else
        -- lines 106-107: `break` leaves the `select`, the `for` goes on
        ⟨.loopTop, s.trace ++ [.accept none,
          .printf "PID %d: Failed to accept connection: %v"]⟩
    | .conn c => ⟨.accepted c, s.trace ++ [.accept (some c)]⟩
  | .accepted c =>
    -- lines 109-110
    ⟨.loopTop, s.trace ++ [.printf "PID %d: Accepted connection from %s",
      .goHandleConnection c (destinationAddress pf)]⟩
  | .returned => s
  | .exited => s

/-- Several statements of `startPortForward`, one observation each. -/
def startPortForwardRun (pf : PortForward) : List Obs → ListenerState → ListenerState
  | [], s => s
  | o :: os, s => startPortForwardRun pf os (startPortForwardStep pf o s)

/-- The connections for which a handler goroutine was started, in order. -/
def spawnedConns (t : List Event) : List ConnId :=
  t.filterMap fun
    | .goHandleConnection c _ => some c
    | _ => none

/-- The connections that `Accept` returned, in order. -/
def acceptedConns (t : List Event) : List ConnId :=
  t.filterMap fun
    | .accept (some c) => some c
    | _ => none

/-- The number of calls of `listener.Accept()` that returned. -/
def acceptCalls (t : List Event) : Nat :=
  t.countP fun
    | .accept _ => true
    | _ => false

/-- The `(network, address)` pairs passed to `net.Listen`. -/
def listenCalls (t : List Event) : List (String × String) :=
  t.filterMap fun
    | .listen n a => some (n, a)
    | _ => none

/-- The format strings of the log lines, in order. -/
def logLines (t : List Event) : List String :=
  t.filterMap fun
    | .printf f => some f
    | .fatalf f => some f
    | _ => none

/-! ## The engine: `main` (lines 30-51) -/

/-- One goroutine started at line 45: the rule it serves and the state of its
`startPortForward` call. -/
structure Task where
  pf : PortForward
  st : ListenerState
deriving DecidableEq, Repr

/-- Program counter of `main` after the configuration was read. -/
inductive MainPC where
  | spawning (rest : List PortForward)   -- in the `for` of line 43
  | waiting                              -- inside `wg.Wait()` (line 50)
  | returned                             -- `main` returned, the process ended
deriving DecidableEq, Repr

/-- State of the process: `main`, the counter of the `sync.WaitGroup`, the rule
goroutines, and whether `os.Exit` was called. -/
structure Engine where
  main : MainPC
  wg : Int
  tasks : List Task
  procExited : Bool
deriving DecidableEq, Repr

/-- The process right after `readConfig` returned the rules. -/
def Engine.init (rules : List PortForward) : Engine :=
  ⟨.spawning rules, 0, [], false⟩

/-- Whether the process has ended, by `os.Exit` or by `main` returning. -/
def Engine.halted (e : Engine) : Bool :=
  e.procExited || (match e.main with
    | .returned => true
    | _ => false)

/-- Scheduler choices: `main` executes its next statement, or the goroutine of
rule number `i` executes its next statement under observation `o`. -/
inductive EngineAction where
  | main
  | rule (i : Nat) (o : Obs)
deriving DecidableEq, Repr

/-- Whether a `startPortForward` call has returned. -/
def ListenerState.isReturned (s : ListenerState) : Bool :=
  match s.pc with
  | .returned => true
  | _ => false

/-- Whether a `startPortForward` call ended the process. -/
def ListenerState.isExited (s : ListenerState) : Bool :=
  match s.pc with
  | .exited => true
  | _ => false

/-- One step of the process. A halted process takes no step. -/
def mainStep (a : EngineAction) (e : Engine) : Engine :=
  if e.halted then e else
  match a with
  | .main =>
    match e.main with
    | .spawning (pf :: rest) =>
      -- lines 44-48: `wg.Add(1)` and `go func(pf) ...`
      { e with main := .spawning rest, wg := e.wg + 1,
               tasks := e.tasks ++ [⟨pf, ListenerState.init⟩] }
    | .spawning [] => { e with main := .waiting }
    | .waiting =>
      -- line 50: `wg.Wait()` returns when the counter is zero
      if e.wg = 0 then { e with main := .returned } else e
    | .returned => e
  | .rule i o =>
    match e.tasks[i]? with
    | none => e
    | some t =>
      let st := startPortForwardStep t.pf o t.st
      { e with
        tasks := e.tasks.set i ⟨t.pf, st⟩
        -- line 46: the deferred `wg.Done()` runs when `startPortForward` returns
        wg := if !t.st.isReturned && st.isReturned then e.wg - 1 else e.wg
        -- line 76: `log.Fatalf` ends the whole process
        procExited := st.isExited }

/-- A schedule of the process. -/
def mainRun : List EngineAction → Engine → Engine
  | [], e => e
  | a :: as, e => mainRun as (mainStep a e)

/-! ## One relay direction: `copyData` (lines 145-163) -/

/-- What one call `src.Read(buf)` returns: the bytes `buf[0:nr]` and the
error `er`. -/
structure ReadResult where
  data : List Byte
  err : Option GoError
deriving DecidableEq, Repr

/-- What one call `dst.Write(p)` returns: the count `nw` and the error `ew`. -/
structure WriteResult where
  nw : Int
  err : Option GoError
deriving DecidableEq, Repr

/-- The destination as seen by the copy loop: the answer to the `k`-th call of
`Write`, given the buffer passed to it. -/
abbrev Writer := Nat → List Byte → WriteResult

/-- How `io.Copy` ends: it returns an error value (possibly `nil`), or it
stays inside a `Read` that never returns. -/
inductive CopyResult where
  | blocked
  | returned (err : Option GoError)
deriving DecidableEq, Repr

/-- The error `io.ErrShortWrite`. -/
def ErrShortWrite : GoError := .other "short write"

/-- The error that the copy loop substitutes for an impossible write count. -/
def errInvalidWrite : GoError := .other "invalid write result"

/-- The part of one round of the copy loop that follows `dst.Write`: the error
that ends the loop, or `none` when the loop goes on. `nr` is the number of
bytes read in this round. An impossible count (`nw < 0 || nr < nw`) is
replaced by zero with `errInvalidWrite`, a write error ends the loop, and so
does a count different from `nr`, with `ErrShortWrite`. -/
def writeError (nr : Int) (wr : WriteResult) : Option GoError :=
  let invalid : Bool := decide (wr.nw < 0) || decide (nr < wr.nw)
  let nw : Int := if invalid then 0 else wr.nw
  let ew : Option GoError :=
    if invalid && wr.err.isNone then some errInvalidWrite else wr.err
  match ew with
  | some e => some e
  | none => if nr ≠ nw then some ErrShortWrite else none

/-- The end of one round of the copy loop: a read error ends the loop, `io.EOF`
is reported as `nil`, and without an error the loop goes on with `next`. -/
def afterRound (er : Option GoError) (next : List Event × CopyResult) :
    List Event × CopyResult :=
  match er with
  | some .EOF => ([], .returned none)
  | some e => ([], .returned (some e))
  | none => next

/-- Modelled from the spec: the body of `io.Copy` belongs to the Go standard
library and is not in main.go, which only calls it (line 147). Section 4.4
says that the relay streams bytes from `src` to `dst` until `src` reaches
end-of-stream or an I/O error occurs, and that a clean end is not an error.
The definition is the copy loop of the library: each round reads once, writes
what was read with a single `Write`, stops with the write error, with
`ErrShortWrite` on a short count, or with the read error, and maps `io.EOF`
to `nil`. The list holds the results of the successive `Read` calls, `k`
counts the `Write` calls made so far. When the list is used up the next
`Read` never returns. -/
def ioCopy (dst src : ConnId) (w : Writer) : List ReadResult → Nat → List Event × CopyResult
  | [], _ => ([], .blocked)
  | r :: rs, k =>
    if r.data.length = 0 then
      -- `nr == 0`: nothing to write
      let rest := afterRound r.err (ioCopy dst src w rs k)
      (.read src r.data :: rest.1, rest.2)
    else
      match writeError r.data.length (w k r.data) with
      | some e => ([.read src r.data, .write dst r.data], .returned (some e))
      | none =>
        let rest := afterRound r.err (ioCopy dst src w rs (k + 1))
        (.read src r.data :: .write dst r.data :: rest.1, rest.2)

/-- Lines 148-162 of `copyData`, after `io.Copy` returned `err`: the log lines
and whether the send on `doneChan` (line 162) is reached. `ctxDone` tells
whether `ctx.Done()` is ready at the `select` of line 149. -/
def copyDataTail (ctxDone : Bool) (err : Option GoError) : List Event × Bool :=
  match err with
  | some e =>
    if ctxDone then
      -- lines 150-152: `return` without a send
      ([.printf "PID %d: Context cancelled, stopping data copy from %s to %s"], false)
    else if stringsContains e.Error "use of closed network connection" then
      ([.printf "PID %d: Connection closed during data copy from %s to %s",
        .printf "PID %d: Completed data copy from %s to %s", .sendDoneChan], true)
    else
      ([.printf "PID %d: Error copying data from %s to %s: %v",
        .printf "PID %d: Completed data copy from %s to %s", .sendDoneChan], true)
  | none =>
    ([.printf "PID %d: Completed data copy from %s to %s", .sendDoneChan], true)

/-- Where a call of `copyData` stands at the end of its own statements. -/
inductive CopyStatus where
  | blockedInCopy      -- `io.Copy` never returned
  | returnedSilent     -- returned at line 152, nothing sent
  | atSend             -- executing `doneChan <- struct{}{}` (line 162)
deriving DecidableEq, Repr

/-- The effects of one call of `copyData` and where it ends. -/
structure CopyDataRun where
  trace : List Event
  status : CopyStatus
deriving DecidableEq, Repr

/-- The function `copyData`, given what its call of `io.Copy` did (the events
`cp.1`) and how that call ended (`cp.2`), and the state of the context at the
`select` of line 149. -/
def copyDataWith (ctxDone : Bool) (cp : List Event × CopyResult) : CopyDataRun :=
  match cp.2 with
  | .blocked =>
    ⟨.printf "PID %d: Starting data copy from %s to %s" :: cp.1, .blockedInCopy⟩
  | .returned err =>
    let tail := copyDataTail ctxDone err
    ⟨.printf "PID %d: Starting data copy from %s to %s" :: (cp.1 ++ tail.1),
      if tail.2 then .atSend else .returnedSilent⟩

/-- The function `copyData(ctx, dst, src, doneChan)`, given the answers of the
source to `Read`, of the destination to `Write`, and the state of the context
when `io.Copy` returns. -/
def copyData (ctxDone : Bool) (dst src : ConnId) (w : Writer) (reads : List ReadResult) :
    CopyDataRun :=
  copyDataWith ctxDone (ioCopy dst src w reads 0)

/-- The bytes passed to `Write` on connection `c`, in order. -/
def bytesWritten (c : ConnId) (t : List Event) : List Byte :=
  (t.filterMap fun
    | .write d data => if d = c then some data else none
    | _ => none).flatten

/-- The number of times the send on `doneChan` is executed. -/
def sendCount (t : List Event) : Nat :=
  t.countP fun
    | .sendDoneChan => true
    | _ => false

/-- The reads of a source that delivers the given chunks and then ends
cleanly: `io.EOF` arrives with the last chunk `final` (which may be empty). -/
def cleanStream (chunks : List (List Byte)) (final : List Byte) : List ReadResult :=
  chunks.map (fun d => ⟨d, none⟩) ++ [⟨final, some .EOF⟩]

/-! ## The handler goroutine and its relays: `handleConnection` (lines 116-142) -/

/-- What `net.Dial` returns (line 122). -/
inductive DialResult where
  | conn (serverConn : ConnId)
  | err (e : GoError)
deriving DecidableEq, Repr

/-- The two relay directions of a pair. `toClient` is the call of line 133,
`copyData(ctx, clientConn, serverConn, doneChan)`, which copies from the remote
side to the client. `toServer` is the call of line 134,
`copyData(ctx, serverConn, clientConn, doneChan)`, which copies from the client
to the remote side. -/
inductive Dir where
  | toClient
  | toServer
deriving DecidableEq, Repr

/-- Program counter of `handleConnection`. -/
inductive HandlerPC where
  | dialing       -- before `net.Dial` returns (line 122)
  | selecting     -- blocked in the `select` of line 136
  | returned      -- the function returned, the deferred closes ran
deriving DecidableEq, Repr

/-- Program counter of one `copyData` goroutine. -/
inductive CopierPC where
  | notStarted                     -- no `go copyData` executed
  | spawned                        -- started by `go`, line 146 pending
  | copying                        -- inside `io.Copy` (line 147)
  | sending                        -- blocked in `doneChan <- struct{}{}` (line 162)
  | returned (signalled : Bool)    -- returned, after a delivered send or without one
deriving DecidableEq, Repr

/-- State of one accepted connection: the context, the handler goroutine, the
connection obtained by the dial and the two relay goroutines. The channel
`doneChan` is unbuffered (line 131), so it has no state of its own: a send
completes only together with a receive. -/
structure PairState where
  ctxDone : Bool
  handler : HandlerPC
  serverConn : Option ConnId
  toClient : CopierPC
  toServer : CopierPC
  trace : List Event
deriving DecidableEq, Repr

/-- The pair when `go handleConnection` has just been executed. -/
def PairState.init (ctxDone : Bool) : PairState :=
  ⟨ctxDone, .dialing, none, .notStarted, .notStarted, []⟩

/-- The relay goroutine of a direction. -/
def PairState.copier (s : PairState) : Dir → CopierPC
  | .toClient => s.toClient
  | .toServer => s.toServer

/-- Update of the relay goroutine of a direction. -/
def PairState.setCopier (s : PairState) (d : Dir) (pc : CopierPC) : PairState :=
  match d with
  | .toClient => { s with toClient := pc }
  | .toServer => { s with toServer := pc }

/-- Scheduler and environment choices for one pair. -/
inductive PairAction where
  | cancel                                          -- `cancel()` is called (line 90)
  | dialReturns (r : DialResult)                    -- `net.Dial` returns
  | copyStarts (d : Dir)                            -- line 146 of a relay
  | copyReturns (d : Dir) (err : Option GoError)    -- `io.Copy` of a relay returns
  | selectCtxDone                                   -- the `select` takes `<-ctx.Done()`
  | selectDoneChan (d : Dir)                        -- the `select` receives the send of `d`
deriving DecidableEq, Repr

/-- Lines 136-142 once the `select` woke up: the log line, then the deferred
closes in reverse order of registration. -/
def teardown (clientConn : ConnId) (serverConn : Option ConnId) (logLine : String) :
    List Event :=
  .printf logLine ::
    ((match serverConn with
      | some sc => [Event.closeConn sc]
      | none => []) ++ [.closeConn clientConn])

/-- One step of a pair, `none` when the action is not enabled in the state.
`clientConn` and `dest` are the arguments of `handleConnection`. -/
def handleConnectionStep (clientConn : ConnId) (dest : String) (a : PairAction) (s : PairState) :
    Option PairState :=
  match a with
  | .cancel => some { s with ctxDone := true }
  | .dialReturns r =>
    match s.handler with
    | .dialing =>
      match r with
      | .err _ =>
        -- lines 123-126, then the deferred `clientConn.Close()`
        some { s with
          handler := .returned
          trace := s.trace ++ [.printf "PID %d: Handling connection to %s",
            .dial "tcp" dest,
            .printf "PID %d: Failed to connect to destination %s: %v",
            .closeConn clientConn] }
      | .conn sc =>
        -- lines 127-134
        some { s with
          handler := .selecting
          serverConn := some sc
          toClient := .spawned
          toServer := .spawned
          trace := s.trace ++ [.printf "PID %d: Handling connection to %s",
            .dial "tcp" dest, .makeDoneChan,
            .goCopyData clientConn sc, .goCopyData sc clientConn] }
    | _ => none
  | .copyStarts d =>
    match s.copier d with
    | .spawned =>
      some { s.setCopier d .copying with
        trace := s.trace ++ [.printf "PID %d: Starting data copy from %s to %s"] }
    | _ => none
  | .copyReturns d err =>
    match s.copier d with
    | .copying =>
      let tail := copyDataTail s.ctxDone err
      some { s.setCopier d (if tail.2 then .sending else .returned false) with
        trace := s.trace ++ tail.1 }
    | _ => none
  | .selectCtxDone =>
    match s.handler, s.ctxDone with
    | .selecting, true =>
      some { s with
        handler := .returned
        trace := s.trace ++ teardown clientConn s.serverConn
          "PID %d: Context cancelled, closing connections" }
    | _, _ => none
  | .selectDoneChan d =>
    match s.handler, s.copier d with
    | .selecting, .sending =>
      some { s.setCopier d (.returned true) with
        handler := .returned
        trace := s.trace ++ (.recvDoneChan :: teardown clientConn s.serverConn
          "PID %d: Data transfer completed, closing connections") }
    | _, _ => none

/-- A schedule of a pair. An action that is not enabled when its turn comes
leaves the state as it is. -/
def handleConnectionRun (clientConn : ConnId) (dest : String) :
    List PairAction → PairState → PairState
  | [], s => s
  | a :: as, s =>
    match handleConnectionStep clientConn dest a s with
    | some s1 => handleConnectionRun clientConn dest as s1
    | none => handleConnectionRun clientConn dest as s

/-- The opposite relay direction. -/
def Dir.other : Dir → Dir
  | .toClient => .toServer
  | .toServer => .toClient

/-- The connections on which `Close` was called, in order. -/
def closeCalls (t : List Event) : List ConnId :=
  t.filterMap fun
    | .closeConn c => some c
    | _ => none

/-- The `(network, address)` pairs passed to `net.Dial`, in order. -/
def dialCalls (t : List Event) : List (String × String) :=
  t.filterMap fun
    | .dial n a => some (n, a)
    | _ => none

/-- The `(dst, src)` pairs of the `go copyData` statements, in order. -/
def relaysStarted (t : List Event) : List (ConnId × ConnId) :=
  t.filterMap fun
    | .goCopyData dst src => some (dst, src)
    | _ => none

/-- Invariant of a pair: the calls of `Close` made so far, by program counter. -/
def PairInv (clientConn : ConnId) (s : PairState) : Prop :=
  match s.handler with
  | .dialing => s.serverConn = none ∧ closeCalls s.trace = []
      ∧ s.toClient = .notStarted ∧ s.toServer = .notStarted
  | .selecting => (∃ sc, s.serverConn = some sc) ∧ closeCalls s.trace = []
  | .returned =>
    closeCalls s.trace =
      (match s.serverConn with
       | some sc => [sc, clientConn]
       | none => [clientConn])

/-- The number of rule goroutines whose `startPortForward` has not returned. -/
def pendingTasks : List Task → Nat
  | [] => 0
  | t :: ts => (if t.st.isReturned then 0 else 1) + pendingTasks ts

/-- Invariant of the process started with `rules`: the counter of the wait
group is the number of rule goroutines that have not returned, `os.Exit` was
called only if some rule goroutine ended in `log.Fatalf`, and the goroutines
started so far serve the rules in order. -/
def EngineInv (rules : List PortForward) (e : Engine) : Prop :=
  e.wg = (pendingTasks e.tasks : Int) ∧
  (e.procExited = true → ∃ t ∈ e.tasks, t.st.isExited = true) ∧
  rules = e.tasks.map Task.pf ++
    (match e.main with
     | .spawning rest => rest
     | _ => [])

/-- Invariant of a rule goroutine: `Listen` was called once the first
statement ran, on the address of line 71, and every handler was started with
the destination of line 72. -/
def AddrInv (pf : PortForward) (s : ListenerState) : Prop :=
  listenCalls s.trace =
      (match s.pc with
       | .start => []
       | _ => [("tcp", sourcePort pf)]) ∧
    (∀ c d, Event.goHandleConnection c d ∈ s.trace → d = destinationAddress pf) ∧
    (s.pc = .start → s.trace = [])

/-- Whether an action is one of the three events that end the `select` of
line 136: the shutdown signal, or the receipt of the send of a relay. -/
def PairAction.isWake : PairAction → Bool
  | .selectCtxDone => true
  | .selectDoneChan _ => true
  | _ => false

/-- The state of a pair right after `net.Dial` returned `sc` (lines 116-134):
the handler is in its `select`, both relays are started, nothing is closed. -/
def PairState.afterDial (clientConn : ConnId) (dest : String) (ctxDone : Bool)
    (sc : ConnId) : PairState :=
  ⟨ctxDone, .selecting, some sc, .spawned, .spawned,
    [.printf "PID %d: Handling connection to %s", .dial "tcp" dest, .makeDoneChan,
     .goCopyData clientConn sc, .goCopyData sc clientConn]⟩

/-- The `(connection, destination)` arguments of the `go handleConnection`
statements, in order. -/
def handlersStarted (t : List Event) : List (ConnId × String) :=
  t.filterMap fun
    | .goHandleConnection c d => some (c, d)
    | _ => none

/-- The connection that `Accept` returned and that has no handler yet. -/
def ListenerState.inHand (s : ListenerState) : List ConnId :=
  match s.pc with
  | .accepted c => [c]
  | _ => []

/-! # Proofs -/

theorem closeCalls_nil : closeCalls [] = [] := rfl

theorem closeCalls_cons (e : Event) (es : List Event) :
    closeCalls (e :: es) =
      (match e with
       | .closeConn c => [c]
       | _ => []) ++ closeCalls es := by
  cases e <;> rfl

theorem closeCalls_append (a b : List Event) :
    closeCalls (a ++ b) = closeCalls a ++ closeCalls b := by
  simp [closeCalls, List.filterMap_append]

theorem closeCalls_copyDataTail (ctxDone : Bool) (err : Option GoError) :
    closeCalls (copyDataTail ctxDone err).1 = [] := by
  unfold copyDataTail
  cases err with
  | none => rfl
  | some e =>
    cases ctxDone
    · by_cases h : stringsContains e.Error "use of closed network connection" = true
      · simp [h, closeCalls_cons, closeCalls_nil]
      · simp [h, closeCalls_cons, closeCalls_nil]
    · rfl

theorem PairInv_step (c : ConnId) (dest : String)
    (a : PairAction) (s s1 : PairState)
    (h : handleConnectionStep c dest a s = some s1) (hi : PairInv c s) : PairInv c s1 := by
  cases a with
  | cancel =>
    simp [handleConnectionStep] at h
    subst h
    exact hi
  | dialReturns r =>
    unfold handleConnectionStep at h
    cases hh : s.handler <;> simp [hh] at h
    cases r with
    | conn sc =>
      simp at h
      subst h
      simp [PairInv, hh] at hi ⊢
      simp [closeCalls_append, hi, closeCalls_cons, closeCalls_nil]
    | err e =>
      simp at h
      subst h
      simp [PairInv, hh] at hi ⊢
      simp [closeCalls_append, hi, closeCalls_cons, closeCalls_nil]
  | copyStarts d =>
    unfold handleConnectionStep at h
    cases hc : s.copier d <;> simp [hc] at h
    subst h
    cases d <;> cases hh : s.handler <;>
      simp [PairInv, hh, PairState.setCopier, PairState.copier, closeCalls_append,
        closeCalls_cons, closeCalls_nil] at hi hc ⊢ <;>
      simp_all
  | copyReturns d err =>
    unfold handleConnectionStep at h
    cases hc : s.copier d <;> simp [hc] at h
    subst h
    cases d <;> cases hh : s.handler <;>
      simp [PairInv, hh, PairState.setCopier, PairState.copier, closeCalls_append,
        closeCalls_copyDataTail] at hi hc ⊢ <;>
      simp_all
  | selectCtxDone =>
    unfold handleConnectionStep at h
    cases hh : s.handler <;> cases hx : s.ctxDone <;> simp [hh, hx] at h
    subst h
    simp [PairInv, hh] at hi ⊢
    obtain ⟨⟨sc, hsc⟩, hcl⟩ := hi
    simp [closeCalls_append, hcl, hsc, teardown, closeCalls_cons, closeCalls_nil]
  | selectDoneChan d =>
    unfold handleConnectionStep at h
    cases hh : s.handler <;> cases hc : s.copier d <;> simp [hh, hc] at h
    subst h
    simp [PairInv, hh] at hi
    obtain ⟨⟨sc, hsc⟩, hcl⟩ := hi
    cases d <;>
      simp [PairInv, PairState.setCopier, closeCalls_append, hcl, hsc, teardown,
        closeCalls_cons, closeCalls_nil]

theorem PairInv_run (c : ConnId) (dest : String)
    (acts : List PairAction) (s : PairState)
    (hi : PairInv c s) : PairInv c (handleConnectionRun c dest acts s) := by
  induction acts generalizing s with
  | nil => exact hi
  | cons a as ih =>
    unfold handleConnectionRun
    cases h : handleConnectionStep c dest a s with
    | none => exact ih s hi
    | some s1 => exact ih s1 (PairInv_step c dest a s s1 h hi)

/-- Once the handler returned, a step keeps it returned, creates no connection
and completes no further send on the channel. -/
theorem handleConnectionStep_after_return (c : ConnId) (dest : String)
    (a : PairAction) (s s1 : PairState)
    (h : handleConnectionStep c dest a s = some s1) (hr : s.handler = .returned) :
    s1.handler = .returned ∧ s1.serverConn = s.serverConn ∧
      (∀ d, s.copier d = .sending → s1.copier d = .sending) ∧
      (∀ d, s.copier d = .notStarted → s1.copier d = .notStarted) ∧
      (∀ d, s1.copier d = .returned true → s.copier d = .returned true) ∧
      (s.toClient = .notStarted → s.toServer = .notStarted → s1.trace = s.trace) := by
  cases a with
  | cancel =>
    simp [handleConnectionStep] at h
    subst h
    simp [hr, PairState.copier]
  | dialReturns r =>
    simp [handleConnectionStep, hr] at h
  | copyStarts d =>
    unfold handleConnectionStep at h
    cases hc : s.copier d <;> simp [hc] at h
    subst h
    refine ⟨?_, ?_, ?_, ?_, ?_, ?_⟩
    · cases d <;> simpa [PairState.setCopier] using hr
    · cases d <;> simp [PairState.setCopier]
    · intro d1 hd1
      cases d <;> cases d1 <;> simp_all [PairState.setCopier, PairState.copier]
    · intro d1 hd1
      cases d <;> cases d1 <;> simp_all [PairState.setCopier, PairState.copier]
    · intro d1 hd1
      cases d <;> cases d1 <;> simp_all [PairState.setCopier, PairState.copier]
    · intro ha hb
      cases d <;> simp_all [PairState.setCopier, PairState.copier]
  | copyReturns d err =>
    unfold handleConnectionStep at h
    cases hc : s.copier d <;> simp [hc] at h
    subst h
    refine ⟨?_, ?_, ?_, ?_, ?_, ?_⟩
    · cases d <;> simpa [PairState.setCopier] using hr
    · cases d <;> simp [PairState.setCopier]
    · intro d1 hd1
      cases d <;> cases d1 <;> simp_all [PairState.setCopier, PairState.copier]
    · intro d1 hd1
      cases d <;> cases d1 <;> simp_all [PairState.setCopier, PairState.copier]
    · intro d1 hd1
      cases ht : (copyDataTail s.ctxDone err).2 <;>
        cases d <;> cases d1 <;> simp_all [PairState.setCopier, PairState.copier]
    · intro ha hb
      cases d <;> simp_all [PairState.setCopier, PairState.copier]
  | selectCtxDone =>
    simp [handleConnectionStep, hr] at h
  | selectDoneChan d =>
    simp [handleConnectionStep, hr] at h

theorem handleConnectionRun_after_return (c : ConnId) (dest : String)
    (acts : List PairAction) (s : PairState)
    (hr : s.handler = .returned) :
    (handleConnectionRun c dest acts s).handler = .returned ∧
      (handleConnectionRun c dest acts s).serverConn = s.serverConn ∧
      (∀ d, s.copier d = .sending → (handleConnectionRun c dest acts s).copier d = .sending) ∧
      (∀ d, s.copier d = .notStarted → (handleConnectionRun c dest acts s).copier d = .notStarted) ∧
      (∀ d, (handleConnectionRun c dest acts s).copier d = .returned true → s.copier d = .returned
          true) ∧
      (s.toClient = .notStarted → s.toServer = .notStarted →
        (handleConnectionRun c dest acts s).trace = s.trace) := by
  induction acts generalizing s with
  | nil => simp [handleConnectionRun, hr]
  | cons a as ih =>
    unfold handleConnectionRun
    cases h : handleConnectionStep c dest a s with
    | none => exact ih s hr
    | some s1 =>
      obtain ⟨h1, h2, h3, h4, h5, h6⟩ := handleConnectionStep_after_return c dest a s s1 h hr
      obtain ⟨i1, i2, i3, i4, i5, i6⟩ := ih s1 h1
      refine ⟨i1, i2.trans h2, fun d hd => i3 d (h3 d hd), fun d hd => i4 d (h4 d hd),
        fun d hd => h5 d (i5 d hd), fun ha hb => ?_⟩
      rw [i6 (h4 .toClient ha) (h4 .toServer hb), h6 ha hb]

/-- After the dial has returned, the connection obtained by it never changes. -/
theorem handleConnectionStep_serverConn (c : ConnId) (dest : String)
    (a : PairAction) (s s1 : PairState)
    (h : handleConnectionStep c dest a s = some s1) (hd : s.handler ≠ .dialing) :
    s1.handler ≠ .dialing ∧ s1.serverConn = s.serverConn := by
  cases a with
  | cancel =>
    simp [handleConnectionStep] at h
    subst h
    exact ⟨hd, rfl⟩
  | dialReturns r =>
    unfold handleConnectionStep at h
    cases hh : s.handler <;> simp [hh] at h
    exact absurd hh hd
  | copyStarts d =>
    unfold handleConnectionStep at h
    cases hc : s.copier d <;> simp [hc] at h
    subst h
    cases d <;> exact ⟨hd, rfl⟩
  | copyReturns d err =>
    unfold handleConnectionStep at h
    cases hc : s.copier d <;> simp [hc] at h
    subst h
    cases d <;> exact ⟨hd, rfl⟩
  | selectCtxDone =>
    unfold handleConnectionStep at h
    cases hh : s.handler <;> cases hx : s.ctxDone <;> simp [hh, hx] at h
    subst h
    simp
  | selectDoneChan d =>
    unfold handleConnectionStep at h
    cases hh : s.handler <;> cases hc : s.copier d <;> simp [hh, hc] at h
    subst h
    cases d <;> simp [PairState.setCopier]

theorem handleConnectionRun_serverConn (c : ConnId) (dest : String)
    (acts : List PairAction) (s : PairState)
    (hd : s.handler ≠ .dialing) :
    (handleConnectionRun c dest acts s).handler ≠ .dialing ∧
      (handleConnectionRun c dest acts s).serverConn = s.serverConn := by
  induction acts generalizing s with
  | nil => exact ⟨hd, rfl⟩
  | cons a as ih =>
    unfold handleConnectionRun
    cases h : handleConnectionStep c dest a s with
    | none => exact ih s hd
    | some s1 =>
      obtain ⟨h1, h2⟩ := handleConnectionStep_serverConn c dest a s s1 h hd
      exact ⟨(ih s1 h1).1, (ih s1 h1).2.trans h2⟩

theorem handleConnectionRun_append (c : ConnId) (dest : String) (a b : List PairAction)
    (s : PairState) :
    handleConnectionRun c dest (a ++ b) s = handleConnectionRun c dest b
        (handleConnectionRun c dest a s) := by
  induction a generalizing s with
  | nil => rfl
  | cons x xs ih =>
    simp only [List.cons_append, handleConnectionRun]
    cases handleConnectionStep c dest x s with
    | none => exact ih s
    | some s1 => exact ih s1

/-- The send of line 162 is reached unless `io.Copy` failed and the context is
cancelled. -/
theorem copyDataTail_snd (ctxDone : Bool) (err : Option GoError) :
    (copyDataTail ctxDone err).2 = !(err.isSome && ctxDone) := by
  unfold copyDataTail
  cases err with
  | none => rfl
  | some e =>
    cases ctxDone
    · by_cases h : stringsContains e.Error "use of closed network connection" = true <;>
        simp [h]
    · rfl

/-- C5: when `net.Dial` fails, `handleConnection` logs, closes the client
connection and returns. Its whole trace is one dial, two log lines and that
one close: there is no second dial, no `go copyData`, no `log.Fatalf`, no
operation on the listener or on another connection. Whatever is scheduled
afterwards, the handler stays returned, both relays stay unstarted and the
trace does not grow. -/
theorem dial_failure_closes_client_and_returns (clientConn : ConnId) (dest : String)
    (ctxDone : Bool) (e : GoError) (acts : List PairAction) :
    handleConnectionStep clientConn dest (.dialReturns (.err e)) (PairState.init ctxDone) =
      some ⟨ctxDone, .returned, none, .notStarted, .notStarted,
        [.printf "PID %d: Handling connection to %s", .dial "tcp" dest,
         .printf "PID %d: Failed to connect to destination %s: %v",
         .closeConn clientConn]⟩ ∧
    (handleConnectionRun clientConn dest (.dialReturns (.err e) :: acts)
        (PairState.init ctxDone)).trace =
      [.printf "PID %d: Handling connection to %s", .dial "tcp" dest,
       .printf "PID %d: Failed to connect to destination %s: %v",
       .closeConn clientConn] ∧
    (handleConnectionRun clientConn dest (.dialReturns (.err e) :: acts)
        (PairState.init ctxDone)).handler =
      .returned ∧
    (handleConnectionRun clientConn dest (.dialReturns (.err e) :: acts)
        (PairState.init ctxDone)).toClient =
      .notStarted ∧
    (handleConnectionRun clientConn dest (.dialReturns (.err e) :: acts)
        (PairState.init ctxDone)).toServer =
      .notStarted := by
  have hstep : handleConnectionRun clientConn dest (.dialReturns (.err e) :: acts)
      (PairState.init ctxDone)
      = handleConnectionRun clientConn dest acts
          ⟨ctxDone, .returned, none, .notStarted, .notStarted,
        [.printf "PID %d: Handling connection to %s", .dial "tcp" dest,
         .printf "PID %d: Failed to connect to destination %s: %v",
         .closeConn clientConn]⟩ := rfl
  have hr := handleConnectionRun_after_return clientConn dest acts
      ⟨ctxDone, .returned, none, .notStarted,
    .notStarted,
    [.printf "PID %d: Handling connection to %s", .dial "tcp" dest,
     .printf "PID %d: Failed to connect to destination %s: %v",
     .closeConn clientConn]⟩ rfl
  rw [hstep]
  exact ⟨rfl, hr.2.2.2.2.2 rfl rfl, hr.1, hr.2.2.2.1 .toClient rfl, hr.2.2.2.1 .toServer rfl⟩

/-- C10: evaluation of the pair at the failing schedule. The dial succeeds, the
client to remote relay ends cleanly and its send is received by the handler,
which closes both connections and returns. The other relay then gets an error
`e` from `io.Copy` while the context is not cancelled and executes its send on
the unbuffered channel. From then on, under every further schedule, that relay
is still blocked in the send: the send is never received and the call never
returns. More generally, after the handler has returned no relay ever
completes a send. -/
theorem second_relay_send_is_never_received (clientConn sc : ConnId) (dest : String)
    (e : GoError) (acts : List PairAction) :
    (handleConnectionRun clientConn dest
        [.dialReturns (.conn sc), .copyStarts .toServer, .copyStarts .toClient,
         .copyReturns .toServer none, .selectDoneChan .toServer,
         .copyReturns .toClient (some e)] (PairState.init false)).handler = .returned ∧
    closeCalls (handleConnectionRun clientConn dest
        [.dialReturns (.conn sc), .copyStarts .toServer, .copyStarts .toClient,
         .copyReturns .toServer none, .selectDoneChan .toServer,
         .copyReturns .toClient (some e)] (PairState.init false)).trace = [sc, clientConn] ∧
    (handleConnectionRun clientConn dest
        [.dialReturns (.conn sc), .copyStarts .toServer, .copyStarts .toClient,
         .copyReturns .toServer none, .selectDoneChan .toServer,
         .copyReturns .toClient (some e)] (PairState.init false)).toClient = .sending ∧
    (handleConnectionRun clientConn dest
        ([.dialReturns (.conn sc), .copyStarts .toServer, .copyStarts .toClient,
          .copyReturns .toServer none, .selectDoneChan .toServer,
          .copyReturns .toClient (some e)] ++ acts) (PairState.init false)).toClient = .sending ∧
    (∀ (s : PairState) (d : Dir), s.handler = .returned →
      (handleConnectionRun clientConn dest acts s).copier d = .returned true →
      s.copier d = .returned true) := by
  have hH : (handleConnectionRun clientConn dest
        [.dialReturns (.conn sc), .copyStarts .toServer, .copyStarts .toClient,
         .copyReturns .toServer none, .selectDoneChan .toServer,
         .copyReturns .toClient (some e)] (PairState.init false)).handler = .returned := by
    simp [handleConnectionRun, handleConnectionStep, PairState.init, PairState.copier,
        PairState.setCopier,
      copyDataTail_snd]
  have hC : (handleConnectionRun clientConn dest
        [.dialReturns (.conn sc), .copyStarts .toServer, .copyStarts .toClient,
         .copyReturns .toServer none, .selectDoneChan .toServer,
         .copyReturns .toClient (some e)] (PairState.init false)).toClient = .sending := by
    simp [handleConnectionRun, handleConnectionStep, PairState.init, PairState.copier,
        PairState.setCopier,
      copyDataTail_snd]
  have hT : closeCalls (handleConnectionRun clientConn dest
        [.dialReturns (.conn sc), .copyStarts .toServer, .copyStarts .toClient,
         .copyReturns .toServer none, .selectDoneChan .toServer,
         .copyReturns .toClient (some e)] (PairState.init false)).trace = [sc, clientConn] := by
    simp [handleConnectionRun, handleConnectionStep, PairState.init, PairState.copier,
        PairState.setCopier,
      copyDataTail_snd, closeCalls_append, closeCalls_cons, closeCalls_nil,
      closeCalls_copyDataTail, teardown]
  rw [handleConnectionRun_append]
  refine ⟨hH, hT, hC, ?_, ?_⟩
  · exact (handleConnectionRun_after_return clientConn dest acts _ hH).2.2.1 .toClient hC
  · intro s d hr hd
    exact (handleConnectionRun_after_return clientConn dest acts s hr).2.2.2.2.1 d hd

theorem sendCount_nil : sendCount [] = 0 := rfl

theorem sendCount_cons (e : Event) (es : List Event) :
    sendCount (e :: es) =
      (match e with
       | .sendDoneChan => 1
       | _ => 0) + sendCount es := by
  cases e <;> simp [sendCount, List.countP_cons, Nat.add_comm]

theorem sendCount_append (a b : List Event) :
    sendCount (a ++ b) = sendCount a + sendCount b := by
  simp [sendCount, List.countP_append]

theorem bytesWritten_nil (c : ConnId) : bytesWritten c [] = [] := rfl

theorem bytesWritten_cons (c : ConnId) (e : Event) (es : List Event) :
    bytesWritten c (e :: es) =
      (match e with
       | .write d data => if d = c then data else []
       | _ => []) ++ bytesWritten c es := by
  cases e <;> simp [bytesWritten, List.filterMap_cons]
  split <;> simp_all

theorem bytesWritten_append (c : ConnId) (a b : List Event) :
    bytesWritten c (a ++ b) = bytesWritten c a ++ bytesWritten c b := by
  simp [bytesWritten, List.filterMap_append]

theorem sendCount_afterRound (er : Option GoError) (next : List Event × CopyResult)
    (h : sendCount next.1 = 0) : sendCount (afterRound er next).1 = 0 := by
  unfold afterRound
  split <;> first | rfl | exact h

/-- The copy loop never touches the completion channel. -/
theorem sendCount_ioCopy (dst src : ConnId) (w : Writer) (reads : List ReadResult) (k : Nat) :
    sendCount (ioCopy dst src w reads k).1 = 0 := by
  induction reads generalizing k with
  | nil => rfl
  | cons r rs ih =>
    unfold ioCopy
    split
    · simp [sendCount_cons, sendCount_afterRound, ih]
    · split
      · simp [sendCount_cons, sendCount_nil]
      · simp [sendCount_cons, sendCount_afterRound, ih]

theorem writeError_ok (n : Nat) : writeError n ⟨n, none⟩ = none := by
  have h : ¬ ((n : Int) < 0) := by omega
  simp [writeError, h]

/-- With a destination that accepts every write in full, the copy loop on a
source that ends cleanly returns `nil` after writing the delivered bytes. -/
theorem ioCopy_cleanStream (dst src : ConnId) (w : Writer)
    (hw : ∀ k p, w k p = ⟨p.length, none⟩) (final : List Byte)
    (chunks : List (List Byte)) (k : Nat) :
    (ioCopy dst src w (cleanStream chunks final) k).2 = .returned none ∧
      bytesWritten dst (ioCopy dst src w (cleanStream chunks final) k).1
        = chunks.flatten ++ final := by
  induction chunks generalizing k with
  | nil =>
    simp only [cleanStream, List.map_nil, List.nil_append, List.flatten_nil]
    unfold ioCopy
    split
    · rename_i h
      have hf : final = [] := List.length_eq_zero.mp h
      simp [afterRound, bytesWritten_cons, bytesWritten_nil, hf]
    · simp [hw, writeError_ok, afterRound, bytesWritten_cons, bytesWritten_nil]
  | cons c cs ih =>
    have hcs : cleanStream (c :: cs) final = ⟨c, none⟩ :: cleanStream cs final := rfl
    rw [hcs]
    unfold ioCopy
    split
    · rename_i h
      have hc : c = [] := List.length_eq_zero.mp h
      simp only [afterRound, List.flatten_cons]
      simp [bytesWritten_cons, ih, hc]
    · simp only [hw, writeError_ok, afterRound, List.flatten_cons]
      simp [bytesWritten_cons, ih]

theorem sendCount_copyDataTail (ctxDone : Bool) (err : Option GoError) :
    sendCount (copyDataTail ctxDone err).1 = if err.isSome && ctxDone then 0 else 1 := by
  unfold copyDataTail
  cases err with
  | none => rfl
  | some e =>
    cases ctxDone
    · by_cases h : stringsContains e.Error "use of closed network connection" = true <;>
        simp [h, sendCount_cons, sendCount_nil]
    · rfl

theorem bytesWritten_copyDataTail (c : ConnId) (ctxDone : Bool) (err : Option GoError) :
    bytesWritten c (copyDataTail ctxDone err).1 = [] := by
  unfold copyDataTail
  cases err with
  | none => rfl
  | some e =>
    cases ctxDone
    · by_cases h : stringsContains e.Error "use of closed network connection" = true <;>
        simp [h, bytesWritten_cons, bytesWritten_nil]
    · rfl

/-- C1: when the source delivers the chunks and then a clean end-of-stream and
every `Write` on the destination succeeds in full, `copyData` reaches its send
on the completion channel, and its trace is the start log line, the events of
the copy, the completion log line and the send, in this order. The events of
the copy contain no send, and the bytes they pass to `Write` on the
destination are exactly the delivered bytes in order. `handleConnection`
starts one such relay per direction: `(dst, src) = (client, remote)` and
`(dst, src) = (remote, client)`. -/
theorem copyData_relays_source_bytes_in_order (ctxDone : Bool) (dst src : ConnId)
    (w : Writer) (chunks : List (List Byte)) (final : List Byte)
    (hw : ∀ k p, w k p = ⟨p.length, none⟩) :
    (copyData ctxDone dst src w (cleanStream chunks final)).status = .atSend ∧
    (∃ evs : List Event,
      (copyData ctxDone dst src w (cleanStream chunks final)).trace =
        .printf "PID %d: Starting data copy from %s to %s" ::
          (evs ++ [.printf "PID %d: Completed data copy from %s to %s", .sendDoneChan]) ∧
      sendCount evs = 0 ∧
      bytesWritten dst evs = chunks.flatten ++ final) ∧
    bytesWritten dst (copyData ctxDone dst src w (cleanStream chunks final)).trace
      = chunks.flatten ++ final ∧
    sendCount (copyData ctxDone dst src w (cleanStream chunks final)).trace = 1 ∧
    (∀ (clientConn sc : ConnId) (dest : String) (ctx : Bool),
      relaysStarted
        (handleConnectionRun clientConn dest [.dialReturns (.conn sc)] (PairState.init ctx)).trace
        = [(clientConn, sc), (sc, clientConn)]) := by
  obtain ⟨h2, hb⟩ := ioCopy_cleanStream dst src w hw final chunks 0
  have hs := sendCount_ioCopy dst src w (cleanStream chunks final) 0
  have htr : (copyData ctxDone dst src w (cleanStream chunks final)).trace =
      .printf "PID %d: Starting data copy from %s to %s" ::
        ((ioCopy dst src w (cleanStream chunks final) 0).1 ++
          [.printf "PID %d: Completed data copy from %s to %s", .sendDoneChan]) := by
    simp [copyData, copyDataWith, h2, copyDataTail]
  refine ⟨?_, ⟨_, htr, hs, hb⟩, ?_, ?_, ?_⟩
  · simp [copyData, copyDataWith, h2, copyDataTail]
  · rw [htr]
    simp [bytesWritten_cons, bytesWritten_append, bytesWritten_nil, hb]
  · rw [htr]
    simp [sendCount_cons, sendCount_append, sendCount_nil, hs]
  · intro clientConn sc dest ctx
    rfl

/-- Witness for C1: the bytes of "ping" arrive in two reads and a last read
that carries one byte together with `io.EOF`, the remote connection 9 takes
every write in full. -/
theorem copyData_relays_source_bytes_in_order_witness :
    (copyData false 9 7 (fun _ p => ⟨p.length, none⟩)
        (cleanStream [[112, 105], [110]] [103])).status = .atSend ∧
    bytesWritten 9 (copyData false 9 7 (fun _ p => ⟨p.length, none⟩)
        (cleanStream [[112, 105], [110]] [103])).trace = [112, 105, 110, 103] :=
  ⟨(copyData_relays_source_bytes_in_order false 9 7 (fun _ p => ⟨p.length, none⟩)
      [[112, 105], [110]] [103] (fun _ _ => rfl)).1,
   (copyData_relays_source_bytes_in_order false 9 7 (fun _ p => ⟨p.length, none⟩)
      [[112, 105], [110]] [103] (fun _ _ => rfl)).2.2.1⟩

/-- C4, as stated, fails: `io.Copy` returns a closed-connection error after
the shutdown signal has fired, and `copyData` returns at line 152 without
executing the send. -/
theorem copyData_no_send_on_error_after_shutdown :
    sendCount (copyDataWith true ([.read 7 []],
      .returned (some (.other "read tcp 10.0.0.1:8080: use of closed network connection")))).trace
      = 0 ∧
    (copyDataWith true ([.read 7 []],
      .returned (some (.other "read tcp 10.0.0.1:8080: use of closed network connection")))).status
      = .returnedSilent := by
  decide

/-- C4, amended: whenever `io.Copy` returns, `copyData` reaches its send on
the completion channel exactly once if the copy ended cleanly (whatever the
state of the shutdown signal) or ended with any error while the shutdown
signal is pending, and it returns without a send if the copy ended with an
error and the shutdown signal has fired. It never sends more than once. Here
`evs` are the events of the copy itself and `err` is what `io.Copy` returned;
the closed-connection error is the case `isClosedError e = true`. -/
theorem copyData_send_count (ctxDone : Bool) (evs : List Event) (err : Option GoError) :
    sendCount (copyDataWith ctxDone (evs, .returned err)).trace
      = sendCount evs + (if err.isSome && ctxDone then 0 else 1) ∧
    (copyDataWith ctxDone (evs, .returned err)).status
      = (if err.isSome && ctxDone then .returnedSilent else .atSend) ∧
    sendCount (copyDataTail ctxDone err).1 = (if err.isSome && ctxDone then 0 else 1) ∧
    sendCount (copyDataTail ctxDone err).1 ≤ 1 ∧
    (∀ e : GoError, sendCount (copyDataTail false (some e)).1 = 1) ∧
    (∀ e : GoError, sendCount (copyDataTail true (some e)).1 = 0) ∧
    sendCount (copyDataTail ctxDone none).1 = 1 := by
  have hc := sendCount_copyDataTail ctxDone err
  have h2 := copyDataTail_snd ctxDone err
  refine ⟨?_, ?_, hc, ?_, ?_, ?_, ?_⟩
  · simp only [copyDataWith, sendCount_cons, sendCount_append, hc]
    simp
  · simp only [copyDataWith, h2]
    cases err.isSome && ctxDone <;> simp
  · rw [hc]
    split <;> simp
  · intro e
    simpa using sendCount_copyDataTail false (some e)
  · intro e
    simpa using sendCount_copyDataTail true (some e)
  · simpa using sendCount_copyDataTail ctxDone none

theorem spawnedConns_nil : spawnedConns [] = [] := rfl

theorem spawnedConns_cons (e : Event) (es : List Event) :
    spawnedConns (e :: es) =
      (match e with
       | .goHandleConnection c _ => [c]
       | _ => []) ++ spawnedConns es := by
  cases e <;> rfl

theorem spawnedConns_append (a b : List Event) :
    spawnedConns (a ++ b) = spawnedConns a ++ spawnedConns b := by
  simp [spawnedConns, List.filterMap_append]

theorem acceptedConns_nil : acceptedConns [] = [] := rfl

theorem acceptedConns_cons (e : Event) (es : List Event) :
    acceptedConns (e :: es) =
      (match e with
       | .accept (some c) => [c]
       | _ => []) ++ acceptedConns es := by
  cases e with
  | accept conn => cases conn <;> rfl
  | _ => rfl

theorem acceptedConns_append (a b : List Event) :
    acceptedConns (a ++ b) = acceptedConns a ++ acceptedConns b := by
  simp [acceptedConns, List.filterMap_append]

theorem listenCalls_nil : listenCalls [] = [] := rfl

theorem listenCalls_cons (e : Event) (es : List Event) :
    listenCalls (e :: es) =
      (match e with
       | .listen n a => [(n, a)]
       | _ => []) ++ listenCalls es := by
  cases e <;> rfl

theorem listenCalls_append (a b : List Event) :
    listenCalls (a ++ b) = listenCalls a ++ listenCalls b := by
  simp [listenCalls, List.filterMap_append]

theorem dialCalls_nil : dialCalls [] = [] := rfl

theorem dialCalls_cons (e : Event) (es : List Event) :
    dialCalls (e :: es) =
      (match e with
       | .dial n a => [(n, a)]
       | _ => []) ++ dialCalls es := by
  cases e <;> rfl

theorem dialCalls_append (a b : List Event) :
    dialCalls (a ++ b) = dialCalls a ++ dialCalls b := by
  simp [dialCalls, List.filterMap_append]

/-- A listener that returned or ended the process takes no further step. -/
theorem startPortForwardRun_stopped (pf : PortForward) (obs : List Obs) (s : ListenerState)
    (h : s.pc = .returned ∨ s.pc = .exited) : startPortForwardRun pf obs s = s := by
  induction obs with
  | nil => rfl
  | cons o os ih =>
    have hs : startPortForwardStep pf o s = s := by
      unfold startPortForwardStep
      rcases h with h | h <;> simp [h]
    simp [startPortForwardRun, hs, ih]

theorem startPortForwardRun_append (pf : PortForward) (a b : List Obs) (s : ListenerState) :
    startPortForwardRun pf (a ++ b) s = startPortForwardRun pf b (startPortForwardRun pf a s) := by
  induction a generalizing s with
  | nil => rfl
  | cons o os ih => exact ih _

/-- C6, as stated, fails on two points. An accept error caused by the closed
listener is written to the log, as "Temporary accept error". And after another
accept error the next iteration does not call `Accept` when the context was
cancelled meanwhile: the loop returns with a single call of `Accept` made,
although a connection was waiting. -/
theorem accept_error_logged_and_loop_may_stop :
    logLines (startPortForwardStep ⟨8080, "127.0.0.1", 9090, "tcp"⟩
      ⟨none, false, .err (.other "accept tcp [::]:8080: use of closed network connection")⟩
      ⟨.accepting, []⟩).trace = ["PID %d: Temporary accept error: %v"] ∧
    (startPortForwardRun ⟨8080, "127.0.0.1", 9090, "tcp"⟩
      [⟨none, false, .err (.other "accept tcp [::]:8080: accept4: too many open files")⟩,
       ⟨none, true, .conn 5⟩, ⟨none, true, .conn 5⟩]
      ⟨.accepting, []⟩).pc = .returned ∧
    acceptCalls (startPortForwardRun ⟨8080, "127.0.0.1", 9090, "tcp"⟩
      [⟨none, false, .err (.other "accept tcp [::]:8080: accept4: too many open files")⟩,
       ⟨none, true, .conn 5⟩, ⟨none, true, .conn 5⟩]
      ⟨.accepting, []⟩).trace = 1 := by
  decide

/-- C6, amended: when `Accept` fails with an error whose text contains
`net.ErrClosed`, the loop logs it once as "Temporary accept error", starts no
handler and returns. When `Accept` fails with any other error, the loop logs
it as "Failed to accept connection", starts no handler and goes to the next
iteration, which calls `Accept` again unless the context is cancelled by
then, in which case the loop returns. -/
theorem accept_error_handling (pf : PortForward) (tr : List Event) (o : Obs) (e : GoError)
    (ho : o.accept = .err e) :
    (isClosedError e = true →
      startPortForwardStep pf o ⟨.accepting, tr⟩ =
        ⟨.returned, tr ++ [.accept none, .printf "PID %d: Temporary accept error: %v",
          .closeListener]⟩) ∧
    (isClosedError e = false →
      startPortForwardStep pf o ⟨.accepting, tr⟩ =
        ⟨.loopTop, tr ++ [.accept none, .printf "PID %d: Failed to accept connection: %v"]⟩ ∧
      (∀ o2 : Obs, o2.ctxDone = false →
        startPortForwardStep pf o2 (startPortForwardStep pf o ⟨.accepting, tr⟩) =
          ⟨.accepting,
            tr ++ [.accept none, .printf "PID %d: Failed to accept connection: %v"]⟩) ∧
      (∀ o2 : Obs, o2.ctxDone = true →
        (startPortForwardStep pf o2 (startPortForwardStep pf o ⟨.accepting, tr⟩)).pc = .returned)) ∧
    spawnedConns (startPortForwardStep pf o ⟨.accepting, tr⟩).trace = spawnedConns tr := by
  refine ⟨?_, ?_, ?_⟩
  · intro h
    simp [startPortForwardStep, ho, h]
  · intro h
    refine ⟨by simp [startPortForwardStep, ho, h], ?_, ?_⟩
    · intro o2 h2
      simp [startPortForwardStep, ho, h, h2]
    · intro o2 h2
      simp [startPortForwardStep, ho, h, h2]
  · cases h : isClosedError e <;>
      simp [startPortForwardStep, ho, h, spawnedConns_append, spawnedConns_cons, spawnedConns_nil]

/-- Witness for C6 amended: `Accept` fails because the file table is full. -/
theorem accept_error_handling_witness :
    spawnedConns (startPortForwardStep ⟨8080, "127.0.0.1", 9090, "tcp"⟩
      ⟨none, false, .err (.other "accept tcp [::]:8080: accept4: too many open files")⟩
      ⟨.accepting, [.accept (some 3)]⟩).trace = spawnedConns [.accept (some 3)] :=
  (accept_error_handling ⟨8080, "127.0.0.1", 9090, "tcp"⟩ [.accept (some 3)]
    ⟨none, false, .err (.other "accept tcp [::]:8080: accept4: too many open files")⟩
    (.other "accept tcp [::]:8080: accept4: too many open files") rfl).2.2

theorem pendingTasks_append (a b : List Task) :
    pendingTasks (a ++ b) = pendingTasks a + pendingTasks b := by
  induction a with
  | nil => simp [pendingTasks]
  | cons t ts ih => simp [pendingTasks, ih, Nat.add_assoc]

theorem pendingTasks_set (l : List Task) (i : Nat) (t t1 : Task) (h : l[i]? = some t) :
    pendingTasks (l.set i t1) + (if t.st.isReturned then 0 else 1)
      = pendingTasks l + (if t1.st.isReturned then 0 else 1) := by
  induction l generalizing i with
  | nil => simp at h
  | cons x xs ih =>
    cases i with
    | zero =>
      simp at h
      subst h
      simp [pendingTasks]
      omega
    | succ n =>
      simp at h
      have := ih n h
      simp [pendingTasks]
      omega

theorem map_pf_set (l : List Task) (i : Nat) (t t1 : Task) (h : l[i]? = some t)
    (hp : t1.pf = t.pf) : (l.set i t1).map Task.pf = l.map Task.pf := by
  induction l generalizing i with
  | nil => simp at h
  | cons x xs ih =>
    cases i with
    | zero =>
      simp at h
      subst h
      simp [hp]
    | succ n =>
      simp at h
      show x.pf :: (xs.set n t1).map Task.pf = x.pf :: xs.map Task.pf
      rw [ih n h]

theorem mem_set_self (l : List Task) (i : Nat) (t t1 : Task) (h : l[i]? = some t) :
    t1 ∈ l.set i t1 := by
  induction l generalizing i with
  | nil => simp at h
  | cons x xs ih =>
    cases i with
    | zero => simp
    | succ n =>
      simp at h
      exact List.mem_cons_of_mem _ (ih n h)

theorem pendingTasks_eq_zero (l : List Task) :
    pendingTasks l = 0 ↔ ∀ t ∈ l, t.st.pc = .returned := by
  induction l with
  | nil => simp [pendingTasks]
  | cons x xs ih =>
    simp only [pendingTasks, List.mem_cons, forall_eq_or_imp, Nat.add_eq_zero, ih]
    constructor
    · rintro ⟨h1, h2⟩
      refine ⟨?_, h2⟩
      unfold ListenerState.isReturned at h1
      cases hx : x.st.pc <;> simp [hx] at h1 ⊢
    · rintro ⟨h1, h2⟩
      refine ⟨?_, h2⟩
      simp [ListenerState.isReturned, h1]

/-- A returned `startPortForward` stays returned, and a step can make a call
returned or exited but not both. -/
theorem startPortForwardStep_isReturned (pf : PortForward) (o : Obs) (s : ListenerState)
    (h : s.isReturned = true) : startPortForwardStep pf o s = s := by
  unfold ListenerState.isReturned at h
  unfold startPortForwardStep
  cases hs : s.pc <;> simp [hs] at h ⊢

theorem mainStep_halted (a : EngineAction) (e : Engine) (h : e.halted = true) :
    mainStep a e = e := by
  simp [mainStep, h]

theorem mainRun_halted (acts : List EngineAction) (e : Engine) (h : e.halted = true) :
    mainRun acts e = e := by
  induction acts with
  | nil => rfl
  | cons a as ih => simp [mainRun, mainStep_halted a e h, ih]

theorem EngineInv_init (rules : List PortForward) : EngineInv rules (Engine.init rules) := by
  simp [EngineInv, Engine.init, pendingTasks]

theorem EngineInv_step (rules : List PortForward) (a : EngineAction) (e : Engine)
    (hi : EngineInv rules e) : EngineInv rules (mainStep a e) := by
  unfold mainStep
  by_cases hh : e.halted = true
  · simpa [hh] using hi
  · simp only [hh]
    have hne : e.procExited = false := by
      unfold Engine.halted at hh
      cases hp : e.procExited <;> simp [hp] at hh ⊢
    obtain ⟨h1, h2, h3⟩ := hi
    cases a with
    | main =>
      simp only [Bool.false_eq_true, ↓reduceIte]
      cases hm : e.main with
      | spawning rest =>
        cases rest with
        | nil =>
          simp only [EngineInv]
          refine ⟨h1, h2, ?_⟩
          simpa [hm] using h3
        | cons pf rest =>
          simp only [EngineInv]
          refine ⟨?_, ?_, ?_⟩
          · simp [pendingTasks_append, pendingTasks, ListenerState.init,
              ListenerState.isReturned, h1]
          · intro hp
            simp [hne] at hp
          · simpa [hm] using h3
      | waiting =>
        simp only
        split
        · simp only [EngineInv]
          refine ⟨h1, h2, ?_⟩
          simpa [hm] using h3
        · exact ⟨h1, h2, h3⟩
      | returned => exact ⟨h1, h2, h3⟩
    | rule i o =>
      simp only [Bool.false_eq_true, ↓reduceIte]
      cases ht : e.tasks[i]? with
      | none => exact ⟨h1, h2, h3⟩
      | some t =>
        simp only [EngineInv]
        have hcount := pendingTasks_set e.tasks i t ⟨t.pf, startPortForwardStep t.pf o t.st⟩ ht
        refine ⟨?_, ?_, ?_⟩
        · by_cases hr : t.st.isReturned = true
          · have hs := startPortForwardStep_isReturned t.pf o t.st hr
            simp only [hs, hr] at hcount ⊢
            simp at hcount ⊢
            omega
          · simp only [Bool.not_eq_true] at hr
            cases hr1 : (startPortForwardStep t.pf o t.st).isReturned
            · simp only [hr, hr1] at hcount ⊢
              simp at hcount ⊢
              omega
            · simp only [hr, hr1] at hcount ⊢
              simp at hcount ⊢
              omega
        · intro hp
          exact ⟨⟨t.pf, startPortForwardStep t.pf o t.st⟩,
            mem_set_self e.tasks i t _ ht, hp⟩
        · rw [map_pf_set e.tasks i t ⟨t.pf, startPortForwardStep t.pf o t.st⟩ ht rfl]
          exact h3

theorem EngineInv_run (rules : List PortForward) (acts : List EngineAction) (e : Engine)
    (hi : EngineInv rules e) : EngineInv rules (mainRun acts e) := by
  induction acts generalizing e with
  | nil => exact hi
  | cons a as ih => exact ih _ (EngineInv_step rules a e hi)

/-- C3, as stated, fails: `Accept` has returned connection 7, the shutdown
signal fires (context cancelled, listener closed), and the loop still executes
line 110 and starts a handler for connection 7 before it returns. -/
theorem handler_dispatched_after_shutdown :
    Obs.shutdownFired
      ⟨none, true, .err (.other "accept tcp [::]:8080: use of closed network connection")⟩
      = true ∧
    (startPortForwardRun ⟨8080, "127.0.0.1", 9090, "tcp"⟩
      [⟨none, true, .err (.other "accept tcp [::]:8080: use of closed network connection")⟩,
       ⟨none, true, .err (.other "accept tcp [::]:8080: use of closed network connection")⟩]
      ⟨.accepted 7, [.accept (some 7)]⟩).pc = .returned ∧
    spawnedConns (startPortForwardRun ⟨8080, "127.0.0.1", 9090, "tcp"⟩
      [⟨none, true, .err (.other "accept tcp [::]:8080: use of closed network connection")⟩,
       ⟨none, true, .err (.other "accept tcp [::]:8080: use of closed network connection")⟩]
      ⟨.accepted 7, [.accept (some 7)]⟩).trace = [7] := by
  decide

/-- C3, amended: once the shutdown signal has fired (every check of the
context finds it cancelled, every `Accept` fails with the closed-listener
error), an accept loop returns within two statements and accepts no further
connection. It starts no further handler, except that a connection which
`Accept` had already returned when the signal fired still gets its handler.
In the engine, when `main` is in `wg.Wait()`, the wait returns at its next
step exactly when every rule goroutine has returned from `startPortForward`,
and there is one such goroutine per rule. -/
theorem shutdown_stops_accept_loop (pf : PortForward) (s : ListenerState) (obs : List Obs)
    (hobs : ∀ o ∈ obs, o.shutdownFired = true) (hlen : 2 ≤ obs.length)
    (hpc : s.pc ≠ .start ∧ s.pc ≠ .exited) :
    (startPortForwardRun pf obs s).pc = .returned ∧
    acceptedConns (startPortForwardRun pf obs s).trace = acceptedConns s.trace ∧
    spawnedConns (startPortForwardRun pf obs s).trace = spawnedConns s.trace ++
      (match s.pc with
       | .accepted c => [c]
       | _ => []) ∧
    (∀ (rules : List PortForward) (acts : List EngineAction),
      (mainRun acts (Engine.init rules)).main = .waiting →
      ((mainRun acts (Engine.init rules)).tasks.map Task.pf = rules ∧
       ((∀ t ∈ (mainRun acts (Engine.init rules)).tasks, t.st.pc = .returned) ↔
        (mainStep .main (mainRun acts (Engine.init rules))).main = .returned))) := by
  have hlistener : (startPortForwardRun pf obs s).pc = .returned ∧
      acceptedConns (startPortForwardRun pf obs s).trace = acceptedConns s.trace ∧
      spawnedConns (startPortForwardRun pf obs s).trace = spawnedConns s.trace ++
        (match s.pc with
         | .accepted c => [c]
         | _ => []) := by
    obtain ⟨o1, obs1, rfl⟩ : ∃ o1 obs1, obs = o1 :: obs1 := by
      cases obs with
      | nil => simp at hlen
      | cons o1 obs1 => exact ⟨o1, obs1, rfl⟩
    obtain ⟨o2, obs2, rfl⟩ : ∃ o2 obs2, obs1 = o2 :: obs2 := by
      cases obs1 with
      | nil => simp at hlen
      | cons o2 obs2 => exact ⟨o2, obs2, rfl⟩
    have h1 := hobs o1 (by simp)
    have h2 := hobs o2 (by simp)
    unfold Obs.shutdownFired at h1 h2
    simp only [Bool.and_eq_true] at h1 h2
    obtain ⟨spc, str⟩ := s
    simp only at hpc
    cases spc with
    | start => exact absurd rfl hpc.1
    | exited => exact absurd rfl hpc.2
    | returned =>
      rw [startPortForwardRun_stopped pf _ _ (Or.inl rfl)]
      simp
    | loopTop =>
      have hs : startPortForwardStep pf o1 ⟨.loopTop, str⟩ = ⟨.returned, str ++
          [.printf "PID %d: Context cancelled, shutting down listener on %s",
           .closeListener]⟩ := by
        simp [startPortForwardStep, h1.1]
      have e1 : startPortForwardRun pf (o1 :: o2 :: obs2) ⟨.loopTop, str⟩
          = startPortForwardRun pf (o2 :: obs2) (startPortForwardStep pf o1 ⟨.loopTop, str⟩) := rfl
      rw [e1, hs, startPortForwardRun_stopped pf _ _ (Or.inl rfl)]
      simp [acceptedConns_append, acceptedConns_cons, acceptedConns_nil,
        spawnedConns_append, spawnedConns_cons, spawnedConns_nil]
    | accepting =>
      have hs : startPortForwardStep pf o1 ⟨.accepting, str⟩ = ⟨.returned, str ++
          [.accept none, .printf "PID %d: Temporary accept error: %v", .closeListener]⟩ := by
        cases ha : o1.accept with
        | conn c => simp [ha] at h1
        | err e =>
          simp only [ha] at h1
          simp [startPortForwardStep, ha, h1.2]
      have e1 : startPortForwardRun pf (o1 :: o2 :: obs2) ⟨.accepting, str⟩
          = startPortForwardRun pf (o2 :: obs2) (startPortForwardStep pf o1
              ⟨.accepting, str⟩) := rfl
      rw [e1, hs, startPortForwardRun_stopped pf _ _ (Or.inl rfl)]
      simp [acceptedConns_append, acceptedConns_cons, acceptedConns_nil,
        spawnedConns_append, spawnedConns_cons, spawnedConns_nil]
    | accepted c =>
      have hs : startPortForwardRun pf [o1, o2] ⟨.accepted c, str⟩ = ⟨.returned, str ++
          [.printf "PID %d: Accepted connection from %s",
           .goHandleConnection c (destinationAddress pf)] ++
          [.printf "PID %d: Context cancelled, shutting down listener on %s",
           .closeListener]⟩ := by
        simp [startPortForwardRun, startPortForwardStep, h2.1]
      have happ : startPortForwardRun pf (o1 :: o2 :: obs2) ⟨.accepted c, str⟩
          = startPortForwardRun pf obs2 (startPortForwardRun pf [o1, o2] ⟨.accepted c, str⟩) :=
        startPortForwardRun_append pf [o1, o2] obs2 _
      rw [happ, hs, startPortForwardRun_stopped pf _ _ (Or.inl rfl)]
      simp [acceptedConns_append, acceptedConns_cons, acceptedConns_nil,
        spawnedConns_append, spawnedConns_cons, spawnedConns_nil]
  refine ⟨hlistener.1, hlistener.2.1, hlistener.2.2, ?_⟩
  intro rules acts hm
  have hinv := EngineInv_run rules acts _ (EngineInv_init rules)
  revert hm hinv
  generalize mainRun acts (Engine.init rules) = e
  intro hm hinv
  obtain ⟨h1, h2, h3⟩ := hinv
  refine ⟨?_, ?_⟩
  · simp [hm] at h3
    exact h3.symm
  · constructor
    · intro hall
      have hz : pendingTasks e.tasks = 0 := (pendingTasks_eq_zero e.tasks).mpr hall
      have hne : e.procExited = false := by
        cases hp : e.procExited with
        | false => rfl
        | true =>
          obtain ⟨t, ht, hx⟩ := h2 hp
          have := hall t ht
          simp [ListenerState.isExited, this] at hx
      simp [mainStep, Engine.halted, hne, hm, h1, hz]
    · intro hret
      unfold mainStep at hret
      by_cases hh : e.halted = true
      · simp [hh, hm] at hret
      · simp only [hh, Bool.false_eq_true, ↓reduceIte, hm] at hret
        by_cases hw : e.wg = 0
        · rw [h1] at hw
          exact (pendingTasks_eq_zero e.tasks).mp (by exact_mod_cast hw)
        · simp [hw, hm] at hret

/-- Witness for C3 amended: the loop is inside `Accept` when the signal
fires. -/
theorem shutdown_stops_accept_loop_witness :
    (startPortForwardRun ⟨8080, "127.0.0.1", 9090, "tcp"⟩
      [⟨none, true, .err (.other "accept tcp [::]:8080: use of closed network connection")⟩,
       ⟨none, true, .err (.other "accept tcp [::]:8080: use of closed network connection")⟩]
      ⟨.accepting, []⟩).pc = .returned ∧
    spawnedConns (startPortForwardRun ⟨8080, "127.0.0.1", 9090, "tcp"⟩
      [⟨none, true, .err (.other "accept tcp [::]:8080: use of closed network connection")⟩,
       ⟨none, true, .err (.other "accept tcp [::]:8080: use of closed network connection")⟩]
      ⟨.accepting, []⟩).trace = [] :=
  ⟨(shutdown_stops_accept_loop ⟨8080, "127.0.0.1", 9090, "tcp"⟩ ⟨.accepting, []⟩
      [⟨none, true, .err (.other "accept tcp [::]:8080: use of closed network connection")⟩,
       ⟨none, true, .err (.other "accept tcp [::]:8080: use of closed network connection")⟩]
      (by decide) (by decide) (by decide)).1,
   (shutdown_stops_accept_loop ⟨8080, "127.0.0.1", 9090, "tcp"⟩ ⟨.accepting, []⟩
      [⟨none, true, .err (.other "accept tcp [::]:8080: use of closed network connection")⟩,
       ⟨none, true, .err (.other "accept tcp [::]:8080: use of closed network connection")⟩]
      (by decide) (by decide) (by decide)).2.2.1⟩

/-- C7: when `net.Listen` fails, the first statement of `startPortForward`
ends in `log.Fatalf`: the trace of the rule is the call of `Listen` and the
fatal log line, with no `Accept` and no handler, and it never grows. In the
engine the step sets the process as exited whatever the other rule goroutines
were doing, and from then on no schedule changes anything: no other rule
accepts or dispatches, and `main` does not go on. -/
theorem bind_failure_terminates_process (pf : PortForward) (o : Obs) (err : GoError)
    (ho : o.listenErr = some err) :
    startPortForwardStep pf o ListenerState.init =
      ⟨.exited, [.listen "tcp" (sourcePort pf), .fatalf "Failed to listen on %s: %v"]⟩ ∧
    (∀ obs : List Obs,
      startPortForwardRun pf (o :: obs) ListenerState.init =
        ⟨.exited, [.listen "tcp" (sourcePort pf), .fatalf "Failed to listen on %s: %v"]⟩) ∧
    (∀ (e : Engine) (i : Nat), e.halted = false →
      e.tasks[i]? = some ⟨pf, ListenerState.init⟩ →
      (mainStep (.rule i o) e).procExited = true ∧
      (mainStep (.rule i o) e).tasks[i]? = some ⟨pf,
        ⟨.exited, [.listen "tcp" (sourcePort pf), .fatalf "Failed to listen on %s: %v"]⟩⟩ ∧
      (∀ j t, j ≠ i → e.tasks[j]? = some t → (mainStep (.rule i o) e).tasks[j]? = some t) ∧
      (mainStep (.rule i o) e).main = e.main ∧
      (∀ acts : List EngineAction,
        mainRun acts (mainStep (.rule i o) e) = mainStep (.rule i o) e)) := by
  have hs : startPortForwardStep pf o ListenerState.init =
      ⟨.exited, [.listen "tcp" (sourcePort pf), .fatalf "Failed to listen on %s: %v"]⟩ := by
    simp [startPortForwardStep, ListenerState.init, ho]
  refine ⟨hs, ?_, ?_⟩
  · intro obs
    show startPortForwardRun pf obs (startPortForwardStep pf o ListenerState.init) = _
    rw [hs, startPortForwardRun_stopped pf _ _ (Or.inr rfl)]
  · intro e i hh ht
    have hstep : mainStep (.rule i o) e =
        { e with
          tasks := e.tasks.set i ⟨pf,
            ⟨.exited, [.listen "tcp" (sourcePort pf), .fatalf "Failed to listen on %s: %v"]⟩⟩
          procExited := true } := by
      have hs1 : startPortForwardStep pf o ⟨.start, []⟩ =
          ⟨.exited, [.listen "tcp" (sourcePort pf), .fatalf "Failed to listen on %s: %v"]⟩ :=
        hs
      simp [mainStep, hh, ht, hs1, ListenerState.isReturned, ListenerState.isExited,
        ListenerState.init]
    have hlt : i < e.tasks.length := by
      rcases Nat.lt_or_ge i e.tasks.length with h | h
      · exact h
      · simp [List.getElem?_eq_none h] at ht
    refine ⟨by rw [hstep], ?_, ?_, by rw [hstep], ?_⟩
    · rw [hstep]
      simp [List.getElem?_set_self, hlt]
    · intro j t hj htj
      rw [hstep]
      simp only
      rw [List.getElem?_set_ne (Ne.symm hj)]
      exact htj
    · intro acts
      apply mainRun_halted
      rw [hstep]
      simp [Engine.halted]

/-- Witness for C7: two rules are running, the second one cannot bind its
port. -/
theorem bind_failure_terminates_process_witness :
    startPortForwardStep ⟨8081, "10.0.0.2", 80, "tcp"⟩
      ⟨some (.other "listen tcp :8081: bind: address already in use"), false, .conn 0⟩
      ListenerState.init =
      ⟨.exited, [.listen "tcp" (sourcePort ⟨8081, "10.0.0.2", 80, "tcp"⟩),
        .fatalf "Failed to listen on %s: %v"]⟩ :=
  (bind_failure_terminates_process ⟨8081, "10.0.0.2", 80, "tcp"⟩
    ⟨some (.other "listen tcp :8081: bind: address already in use"), false, .conn 0⟩
    (.other "listen tcp :8081: bind: address already in use") rfl).1

theorem dialCalls_copyDataTail (ctxDone : Bool) (err : Option GoError) :
    dialCalls (copyDataTail ctxDone err).1 = [] := by
  unfold copyDataTail
  cases err with
  | none => rfl
  | some e =>
    cases ctxDone
    · by_cases h : stringsContains e.Error "use of closed network connection" = true <;>
        simp [h, dialCalls_cons, dialCalls_nil]
    · rfl

/-- After the dial has returned, no step dials again. -/
theorem handleConnectionStep_dialCalls (c : ConnId) (dest : String)
    (a : PairAction) (s s1 : PairState)
    (h : handleConnectionStep c dest a s = some s1) (hd : s.handler ≠ .dialing) :
    dialCalls s1.trace = dialCalls s.trace := by
  cases a with
  | cancel =>
    simp [handleConnectionStep] at h
    subst h
    rfl
  | dialReturns r =>
    unfold handleConnectionStep at h
    cases hh : s.handler <;> simp [hh] at h
    exact absurd hh hd
  | copyStarts d =>
    unfold handleConnectionStep at h
    cases hc : s.copier d <;> simp [hc] at h
    subst h
    cases d <;> simp [PairState.setCopier, dialCalls_append, dialCalls_cons, dialCalls_nil]
  | copyReturns d err =>
    unfold handleConnectionStep at h
    cases hc : s.copier d <;> simp [hc] at h
    subst h
    cases d <;> simp [PairState.setCopier, dialCalls_append, dialCalls_copyDataTail]
  | selectCtxDone =>
    unfold handleConnectionStep at h
    cases hh : s.handler <;> cases hx : s.ctxDone <;> simp [hh, hx] at h
    subst h
    cases hs : s.serverConn <;>
      simp [teardown, hs, dialCalls_append, dialCalls_cons, dialCalls_nil]
  | selectDoneChan d =>
    unfold handleConnectionStep at h
    cases hh : s.handler <;> cases hc : s.copier d <;> simp [hh, hc] at h
    subst h
    cases d <;> cases hs : s.serverConn <;>
      simp [PairState.setCopier, teardown, hs, dialCalls_append, dialCalls_cons,
        dialCalls_nil]

theorem handleConnectionRun_dialCalls (c : ConnId) (dest : String)
    (acts : List PairAction) (s : PairState)
    (hd : s.handler ≠ .dialing) :
    dialCalls (handleConnectionRun c dest acts s).trace = dialCalls s.trace := by
  induction acts generalizing s with
  | nil => rfl
  | cons a as ih =>
    unfold handleConnectionRun
    cases h : handleConnectionStep c dest a s with
    | none => exact ih s hd
    | some s1 =>
      rw [ih s1 (handleConnectionStep_serverConn c dest a s s1 h hd).1]
      exact handleConnectionStep_dialCalls c dest a s s1 h hd

/-- The calls of `Listen` of a rule and the destinations of its handlers, by
program counter. -/
theorem startPortForwardStep_addresses (pf : PortForward) (o : Obs) (s : ListenerState)
    (h1 : listenCalls s.trace =
      (match s.pc with
       | .start => []
       | _ => [("tcp", sourcePort pf)]))
    (h2 : ∀ c d, Event.goHandleConnection c d ∈ s.trace → d = destinationAddress pf)
    (h3 : s.pc = .start → s.trace = []) :
    (listenCalls (startPortForwardStep pf o s).trace = [("tcp", sourcePort pf)] ∨
      (s.pc = .exited ∨ s.pc = .returned) ∧ startPortForwardStep pf o s = s) ∧
    (∀ c d, Event.goHandleConnection c d ∈ (startPortForwardStep pf o s).trace →
      d = destinationAddress pf) ∧
    (startPortForwardStep pf o s).pc ≠ .start := by
  obtain ⟨pc, tr⟩ := s
  cases pc with
  | start =>
    have ht : tr = [] := h3 rfl
    subst ht
    cases hl : o.listenErr <;>
      simp [startPortForwardStep, hl, listenCalls_cons, listenCalls_nil]
  | loopTop =>
    cases hc : o.ctxDone
    · simp only [startPortForwardStep, hc]
      simp only at h1
      exact ⟨Or.inl h1, h2, by simp⟩
    · simp only [startPortForwardStep, hc]
      simp only at h1
      refine ⟨Or.inl ?_, ?_, by simp⟩
      · simp [listenCalls_append, listenCalls_cons, listenCalls_nil, h1]
      · intro c d hm
        simp at hm
        exact h2 c d hm
  | accepting =>
    simp only at h1 h2
    cases ha : o.accept with
    | conn c1 =>
      simp only [startPortForwardStep, ha]
      refine ⟨Or.inl ?_, ?_, by simp⟩
      · simp [listenCalls_append, listenCalls_cons, listenCalls_nil, h1]
      · intro c d hm
        simp at hm
        exact h2 c d hm
    | err e =>
      cases he : isClosedError e
      · simp only [startPortForwardStep, ha, he]
        refine ⟨Or.inl ?_, ?_, by simp⟩
        · simp [listenCalls_append, listenCalls_cons, listenCalls_nil, h1]
        · intro c d hm
          simp at hm
          exact h2 c d hm
      · simp only [startPortForwardStep, ha, he]
        refine ⟨Or.inl ?_, ?_, by simp⟩
        · simp [listenCalls_append, listenCalls_cons, listenCalls_nil, h1]
        · intro c d hm
          simp at hm
          exact h2 c d hm
  | accepted c1 =>
    simp only at h1 h2
    simp only [startPortForwardStep]
    refine ⟨Or.inl ?_, ?_, by simp⟩
    · simp [listenCalls_append, listenCalls_cons, listenCalls_nil, h1]
    · intro c d hm
      simp at hm
      rcases hm with hm | hm
      · exact h2 c d hm
      · exact hm.2
  | returned =>
    exact ⟨Or.inr ⟨Or.inr rfl, rfl⟩, h2, by simp [startPortForwardStep]⟩
  | exited =>
    exact ⟨Or.inr ⟨Or.inl rfl, rfl⟩, h2, by simp [startPortForwardStep]⟩

theorem AddrInv_step (pf : PortForward) (o : Obs) (s : ListenerState) (h : AddrInv pf s) :
    AddrInv pf (startPortForwardStep pf o s) ∧ (startPortForwardStep pf o s).pc ≠ .start := by
  obtain ⟨h1, h2, h3⟩ := h
  obtain ⟨g1, g2, g3⟩ := startPortForwardStep_addresses pf o s h1 h2 h3
  refine ⟨⟨?_, g2, fun hs => absurd hs g3⟩, g3⟩
  rcases g1 with g1 | ⟨_, g1⟩
  · rw [g1]
    cases hp : (startPortForwardStep pf o s).pc <;> simp [hp] at g3 ⊢
  · rw [g1]
    exact h1

theorem AddrInv_run (pf : PortForward) (obs : List Obs) (s : ListenerState)
    (h : AddrInv pf s) : AddrInv pf (startPortForwardRun pf obs s) ∧
      (obs ≠ [] → (startPortForwardRun pf obs s).pc ≠ .start) := by
  induction obs generalizing s with
  | nil => exact ⟨h, fun hne => absurd rfl hne⟩
  | cons o os ih =>
    obtain ⟨hi, hp⟩ := AddrInv_step pf o s h
    obtain ⟨hr, hq⟩ := ih _ hi
    refine ⟨hr, fun _ => ?_⟩
    cases os with
    | nil => exact hp
    | cons o2 os2 => exact hq (by simp)

theorem startPortForwardStep_protocol (pf : PortForward) (protocol : String) (o : Obs)
    (s : ListenerState) :
    startPortForwardStep { pf with ProtocolType := protocol } o s = startPortForwardStep pf o s :=
        rfl

theorem startPortForwardRun_protocol (pf : PortForward) (protocol : String) (obs : List Obs)
    (s : ListenerState) :
    startPortForwardRun { pf with ProtocolType := protocol } obs s = startPortForwardRun pf obs
        s := by
  induction obs generalizing s with
  | nil => rfl
  | cons o os ih => simp only [startPortForwardRun, startPortForwardStep_protocol, ih]

theorem handleConnectionRun_dial_conn (c : ConnId) (dest : String) (ctxDone : Bool)
    (sc : ConnId) (acts : List PairAction) :
    handleConnectionRun c dest (.dialReturns (.conn sc) :: acts) (PairState.init ctxDone)
      = handleConnectionRun c dest acts (PairState.afterDial c dest ctxDone sc) := rfl

theorem PairInv_init (c : ConnId) (ctxDone : Bool) : PairInv c (PairState.init ctxDone) := by
  simp [PairInv, PairState.init, closeCalls_nil]

/-- After a successful dial the pair is either still in the `select` with
nothing closed, or the handler has returned and `Close` was called once on the
remote and once on the client connection. -/
theorem handleConnectionRun_afterDial (c : ConnId) (dest : String) (ctxDone : Bool)
    (sc : ConnId) (acts : List PairAction) :
    (handleConnectionRun c dest acts (PairState.afterDial c dest ctxDone sc)).serverConn
      = some sc ∧
    ((handleConnectionRun c dest acts (PairState.afterDial c dest ctxDone sc)).handler
        = .selecting ∧
      closeCalls (handleConnectionRun c dest acts
        (PairState.afterDial c dest ctxDone sc)).trace = [] ∨
     (handleConnectionRun c dest acts (PairState.afterDial c dest ctxDone sc)).handler
        = .returned ∧
      closeCalls (handleConnectionRun c dest acts
        (PairState.afterDial c dest ctxDone sc)).trace = [sc, c]) := by
  have h := PairInv_run c dest (.dialReturns (.conn sc) :: acts) _ (PairInv_init c ctxDone)
  rw [handleConnectionRun_dial_conn] at h
  have hs := handleConnectionRun_serverConn c dest acts
    (PairState.afterDial c dest ctxDone sc) (by simp [PairState.afterDial])
  revert h hs
  generalize handleConnectionRun c dest acts (PairState.afterDial c dest ctxDone sc) = s
  intro h hs
  have hsc : s.serverConn = some sc := hs.2
  refine ⟨hsc, ?_⟩
  unfold PairInv at h
  cases hh : s.handler <;> simp only [hh] at h hs
  · exact absurd rfl hs.1
  · exact Or.inl ⟨rfl, h.2⟩
  · rw [hsc] at h
    exact Or.inr ⟨rfl, h⟩

/-- A step that is none of the three events leaves the handler in its
`select`. -/
theorem handleConnectionStep_waits (c : ConnId) (dest : String) (a : PairAction)
    (s s1 : PairState) (h : handleConnectionStep c dest a s = some s1)
    (hsel : s.handler = .selecting) (ha : a.isWake = false) : s1.handler = .selecting := by
  cases a with
  | cancel =>
    simp [handleConnectionStep] at h
    subst h
    exact hsel
  | dialReturns r => simp [handleConnectionStep, hsel] at h
  | copyStarts d =>
    unfold handleConnectionStep at h
    cases hc : s.copier d <;> simp [hc] at h
    subst h
    cases d <;> simpa [PairState.setCopier] using hsel
  | copyReturns d err =>
    unfold handleConnectionStep at h
    cases hc : s.copier d <;> simp [hc] at h
    subst h
    cases d <;> simpa [PairState.setCopier] using hsel
  | selectCtxDone => simp [PairAction.isWake] at ha
  | selectDoneChan d => simp [PairAction.isWake] at ha

theorem handleConnectionRun_waits (c : ConnId) (dest : String) (acts : List PairAction)
    (s : PairState) (hsel : s.handler = .selecting)
    (ha : ∀ a ∈ acts, a.isWake = false) :
    (handleConnectionRun c dest acts s).handler = .selecting := by
  induction acts generalizing s with
  | nil => exact hsel
  | cons a as ih =>
    unfold handleConnectionRun
    cases h : handleConnectionStep c dest a s with
    | none => exact ih s hsel (fun x hx => ha x (List.mem_cons_of_mem _ hx))
    | some s1 =>
      exact ih s1 (handleConnectionStep_waits c dest a s s1 h hsel (ha a (by simp)))
        (fun x hx => ha x (List.mem_cons_of_mem _ hx))

/-- In the `select`, with the context cancelled, the shutdown event makes the
handler return and call `Close` on the remote and on the client connection;
the relays are left where they were. -/
theorem handleConnectionStep_wake_ctx (c : ConnId) (dest : String) (s : PairState)
    (sc : ConnId) (hsel : s.handler = .selecting) (hsc : s.serverConn = some sc)
    (hctx : s.ctxDone = true) :
    ∃ s1, handleConnectionStep c dest .selectCtxDone s = some s1 ∧
      s1.handler = .returned ∧
      closeCalls s1.trace = closeCalls s.trace ++ [sc, c] ∧
      s1.toClient = s.toClient ∧ s1.toServer = s.toServer := by
  refine ⟨{ s with
      handler := .returned
      trace := s.trace ++ teardown c s.serverConn
        "PID %d: Context cancelled, closing connections" }, ?_, rfl, ?_, rfl, rfl⟩
  · simp only [handleConnectionStep, hsel, hctx]
  · simp [closeCalls_append, closeCalls_cons, closeCalls_nil, teardown, hsc]

/-- In the `select`, with relay `d` in its send, the receipt of that send makes
the handler return and call `Close` on the remote and on the client
connection; the other relay is left where it was. -/
theorem handleConnectionStep_wake_done (c : ConnId) (dest : String) (s : PairState)
    (sc : ConnId) (d : Dir) (hsel : s.handler = .selecting) (hsc : s.serverConn = some sc)
    (hd : s.copier d = .sending) :
    ∃ s1, handleConnectionStep c dest (.selectDoneChan d) s = some s1 ∧
      s1.handler = .returned ∧
      closeCalls s1.trace = closeCalls s.trace ++ [sc, c] ∧
      s1.copier d = .returned true ∧ s1.copier d.other = s.copier d.other := by
  refine ⟨{ s.setCopier d (.returned true) with
      handler := .returned
      trace := s.trace ++ (.recvDoneChan :: teardown c s.serverConn
        "PID %d: Data transfer completed, closing connections") }, ?_, ?_, ?_, ?_, ?_⟩
  · simp only [handleConnectionStep, hsel, hd]
  · cases d <;> rfl
  · cases d <;>
      simp [PairState.setCopier, closeCalls_append, closeCalls_cons, closeCalls_nil,
        teardown, hsc]
  · cases d <;> rfl
  · cases d <;> rfl

/-- C2: on every schedule of `handleConnection`, `Close` is called on no
connection while the handler has not returned, and once it has returned the
calls of `Close` are exactly one on the remote connection followed by one on
the client connection when the dial succeeded, and exactly one on the client
connection when it failed. No later step adds a call. Every exit is taken and
ends so: after a dial failure the handler has returned with the client closed
once; after a successful dial, when a relay ends (cleanly, or with a copy
error while the context is pending) and its send is received, and when the
shutdown signal fires (from any state reached after the dial), the handler
returns with the remote and the client connection closed once each. -/
theorem handleConnection_closes_each_connection_once (clientConn : ConnId) (dest : String)
    (ctxDone : Bool) (acts : List PairAction) :
    (closeCalls (handleConnectionRun clientConn dest acts (PairState.init ctxDone)).trace =
      match (handleConnectionRun clientConn dest acts (PairState.init ctxDone)).handler,
        (handleConnectionRun clientConn dest acts (PairState.init ctxDone)).serverConn with
      | .returned, some sc => [sc, clientConn]
      | .returned, none => [clientConn]
      | _, _ => []) ∧
    (∀ e : GoError,
      (handleConnectionRun clientConn dest (.dialReturns (.err e) :: acts)
          (PairState.init ctxDone)).handler
          = .returned ∧
        closeCalls
          (handleConnectionRun clientConn dest (.dialReturns (.err e) :: acts)
              (PairState.init ctxDone)).trace
          = [clientConn]) ∧
    (∀ sc : ConnId,
      closeCalls
          (handleConnectionRun clientConn dest (.dialReturns (.conn sc) :: acts)
              (PairState.init ctxDone)).trace
        = if (handleConnectionRun clientConn dest (.dialReturns (.conn sc) :: acts)
              (PairState.init ctxDone)).handler = .returned
          then [sc, clientConn] else []) ∧
    (∀ (sc : ConnId) (d : Dir),
      (handleConnectionRun clientConn dest
        [.dialReturns (.conn sc), .copyStarts d, .copyReturns d none, .selectDoneChan d]
        (PairState.init ctxDone)).handler = .returned ∧
      closeCalls (handleConnectionRun clientConn dest
        [.dialReturns (.conn sc), .copyStarts d, .copyReturns d none, .selectDoneChan d]
        (PairState.init ctxDone)).trace = [sc, clientConn]) ∧
    (∀ (sc : ConnId) (d : Dir) (e : GoError),
      (handleConnectionRun clientConn dest
        [.dialReturns (.conn sc), .copyStarts d, .copyReturns d (some e), .selectDoneChan d]
        (PairState.init false)).handler = .returned ∧
      closeCalls (handleConnectionRun clientConn dest
        [.dialReturns (.conn sc), .copyStarts d, .copyReturns d (some e), .selectDoneChan d]
        (PairState.init false)).trace = [sc, clientConn]) ∧
    (∀ sc : ConnId,
      (handleConnectionRun clientConn dest
        (.dialReturns (.conn sc) :: (acts ++ [.cancel, .selectCtxDone]))
        (PairState.init ctxDone)).handler = .returned ∧
      closeCalls (handleConnectionRun clientConn dest
        (.dialReturns (.conn sc) :: (acts ++ [.cancel, .selectCtxDone]))
        (PairState.init ctxDone)).trace = [sc, clientConn]) ∧
    (∀ (sc : ConnId) (d : Dir),
      (handleConnectionRun clientConn dest (.dialReturns (.conn sc) :: acts)
        (PairState.init ctxDone)).handler = .selecting →
      (handleConnectionRun clientConn dest (.dialReturns (.conn sc) :: acts)
        (PairState.init ctxDone)).copier d = .sending →
      (handleConnectionRun clientConn dest
        (.dialReturns (.conn sc) :: (acts ++ [.selectDoneChan d]))
        (PairState.init ctxDone)).handler = .returned ∧
      closeCalls (handleConnectionRun clientConn dest
        (.dialReturns (.conn sc) :: (acts ++ [.selectDoneChan d]))
        (PairState.init ctxDone)).trace = [sc, clientConn]) := by
  have hinit : ∀ b, PairInv clientConn (PairState.init b) := by
    intro b
    simp [PairInv, PairState.init, closeCalls_nil]
  refine ⟨?_, ?_, ?_, ?_, ?_, ?_, ?_⟩
  · have h := PairInv_run clientConn dest acts _ (hinit ctxDone)
    generalize handleConnectionRun clientConn dest acts (PairState.init ctxDone) = s at h
    unfold PairInv at h
    cases hh : s.handler <;> simp only [hh] at h ⊢
    · exact h.2.1
    · exact h.2
    · cases hs : s.serverConn <;> simp only [hs] at h ⊢ <;> exact h
  · intro e
    have h := PairInv_run clientConn dest (.dialReturns (.err e) :: acts) _ (hinit ctxDone)
    have hr := handleConnectionRun_after_return clientConn dest acts
      { PairState.init ctxDone with
        handler := .returned
        trace := (PairState.init ctxDone).trace ++ [.printf "PID %d: Handling connection to %s",
          .dial "tcp" dest,
          .printf "PID %d: Failed to connect to destination %s: %v",
          .closeConn clientConn] } rfl
    have hstep : handleConnectionRun clientConn dest (.dialReturns (.err e) :: acts)
        (PairState.init ctxDone)
        = handleConnectionRun clientConn dest acts
          { PairState.init ctxDone with
            handler := .returned
            trace := (PairState.init ctxDone).trace ++
              [.printf "PID %d: Handling connection to %s",
               .dial "tcp" dest,
               .printf "PID %d: Failed to connect to destination %s: %v",
               .closeConn clientConn] } := rfl
    rw [hstep] at h ⊢
    refine ⟨hr.1, ?_⟩
    unfold PairInv at h
    rw [hr.1, hr.2.1] at h
    exact h
  · intro sc
    have h := PairInv_run clientConn dest (.dialReturns (.conn sc) :: acts) _ (hinit ctxDone)
    have hstep : handleConnectionRun clientConn dest (.dialReturns (.conn sc) :: acts)
        (PairState.init ctxDone)
        = handleConnectionRun clientConn dest acts
          { PairState.init ctxDone with
            handler := .selecting
            serverConn := some sc
            toClient := .spawned
            toServer := .spawned
            trace := (PairState.init ctxDone).trace ++
              [.printf "PID %d: Handling connection to %s",
               .dial "tcp" dest, .makeDoneChan,
               .goCopyData clientConn sc, .goCopyData sc clientConn] } := rfl
    rw [hstep] at h ⊢
    have hs := handleConnectionRun_serverConn clientConn dest acts
      { PairState.init ctxDone with
        handler := .selecting
        serverConn := some sc
        toClient := .spawned
        toServer := .spawned
        trace := (PairState.init ctxDone).trace ++
          [.printf "PID %d: Handling connection to %s",
           .dial "tcp" dest, .makeDoneChan,
           .goCopyData clientConn sc, .goCopyData sc clientConn] } (by simp)
    revert h hs
    generalize handleConnectionRun clientConn dest acts _ = s
    intro h hs
    unfold PairInv at h
    cases hh : s.handler <;> simp only [hh] at h hs ⊢
    · exact absurd rfl hs.1
    · simpa using h.2
    · rw [hs.2] at h
      simpa using h
  · intro sc d
    cases d <;>
      simp [handleConnectionRun, handleConnectionStep, PairState.init, PairState.copier,
        PairState.setCopier, copyDataTail_snd, closeCalls_append, closeCalls_cons,
        closeCalls_nil, closeCalls_copyDataTail, teardown]
  · intro sc d e
    cases d <;>
      simp [handleConnectionRun, handleConnectionStep, PairState.init, PairState.copier,
        PairState.setCopier, copyDataTail_snd, closeCalls_append, closeCalls_cons,
        closeCalls_nil, closeCalls_copyDataTail, teardown]
  · intro sc
    have happ : handleConnectionRun clientConn dest
          (.dialReturns (.conn sc) :: (acts ++ [.cancel, .selectCtxDone]))
          (PairState.init ctxDone)
        = handleConnectionRun clientConn dest [.cancel, .selectCtxDone]
            (handleConnectionRun clientConn dest acts
              (PairState.afterDial clientConn dest ctxDone sc)) := by
      rw [← List.cons_append, handleConnectionRun_append, handleConnectionRun_dial_conn]
    rw [happ]
    obtain ⟨hsc, hcase⟩ := handleConnectionRun_afterDial clientConn dest ctxDone sc acts
    revert hsc hcase
    generalize handleConnectionRun clientConn dest acts
      (PairState.afterDial clientConn dest ctxDone sc) = s
    intro hsc hcase
    rcases hcase with ⟨hh, hcl⟩ | ⟨hh, hcl⟩
    · obtain ⟨s1, h1, h2, h3, _⟩ := handleConnectionStep_wake_ctx clientConn dest
        { s with ctxDone := true } sc hh hsc rfl
      have hc : handleConnectionStep clientConn dest .cancel s
          = some { s with ctxDone := true } := rfl
      have hrun : handleConnectionRun clientConn dest [.cancel, .selectCtxDone] s = s1 := by
        simp only [handleConnectionRun, hc, h1]
      rw [hrun]
      exact ⟨h2, by simpa [hcl] using h3⟩
    · have hrun : handleConnectionRun clientConn dest [.cancel, .selectCtxDone] s
          = { s with ctxDone := true } := by
        simp [handleConnectionRun, handleConnectionStep, hh]
      rw [hrun]
      exact ⟨hh, hcl⟩
  · intro sc d
    have happ : handleConnectionRun clientConn dest
          (.dialReturns (.conn sc) :: (acts ++ [.selectDoneChan d]))
          (PairState.init ctxDone)
        = handleConnectionRun clientConn dest [.selectDoneChan d]
            (handleConnectionRun clientConn dest acts
              (PairState.afterDial clientConn dest ctxDone sc)) := by
      rw [← List.cons_append, handleConnectionRun_append, handleConnectionRun_dial_conn]
    rw [happ, handleConnectionRun_dial_conn]
    obtain ⟨hsc, hcase⟩ := handleConnectionRun_afterDial clientConn dest ctxDone sc acts
    revert hsc hcase
    generalize handleConnectionRun clientConn dest acts
      (PairState.afterDial clientConn dest ctxDone sc) = s
    intro hsc hcase hh hd
    obtain ⟨s1, h1, h2, h3, _⟩ := handleConnectionStep_wake_done clientConn dest s sc d
      hh hsc hd
    have hcl : closeCalls s.trace = [] := by
      rcases hcase with ⟨_, hcl⟩ | ⟨hr, _⟩
      · exact hcl
      · rw [hh] at hr
        cases hr
    have hrun : handleConnectionRun clientConn dest [.selectDoneChan d] s = s1 := by
      simp only [handleConnectionRun, h1]
    rw [hrun]
    exact ⟨h2, by simpa [hcl] using h3⟩

/-- C9: a successful dial (remote connection `sc`) puts the handler in its
`select` with both relays started and nothing closed, and it stays there,
with nothing closed, as long as none of the three events happens: the shutdown
signal, the completion of the client to remote relay, the completion of the
remote to client relay. At every moment after the dial the handler is either
in the `select` with nothing closed or has returned with `Close` called once
on the remote and once on the client connection. In the `select` a step makes
the handler return exactly when it is one of the three events; the shutdown
event is enabled as soon as the context is cancelled and a completion event as
soon as that relay is in its send, whatever the other relay is doing. The
first such event makes the handler call `Close` on both connections and leaves
the other relay where it was. In particular a clean end-of-stream in direction
`d` alone closes both connections while the other relay has not finished. -/
theorem first_event_closes_both_connections (clientConn : ConnId) (dest : String)
    (sc : ConnId) :
    (∀ ctxDone : Bool,
      handleConnectionStep clientConn dest (.dialReturns (.conn sc)) (PairState.init ctxDone)
        = some ⟨ctxDone, .selecting, some sc, .spawned, .spawned,
            [.printf "PID %d: Handling connection to %s", .dial "tcp" dest, .makeDoneChan,
             .goCopyData clientConn sc, .goCopyData sc clientConn]⟩) ∧
    (∀ (ctxDone : Bool) (acts : List PairAction), (∀ a ∈ acts, a.isWake = false) →
      (handleConnectionRun clientConn dest (.dialReturns (.conn sc) :: acts)
        (PairState.init ctxDone)).handler = .selecting ∧
      closeCalls (handleConnectionRun clientConn dest (.dialReturns (.conn sc) :: acts)
        (PairState.init ctxDone)).trace = []) ∧
    (∀ (ctxDone : Bool) (acts : List PairAction),
      (handleConnectionRun clientConn dest (.dialReturns (.conn sc) :: acts)
        (PairState.init ctxDone)).serverConn = some sc ∧
      ((handleConnectionRun clientConn dest (.dialReturns (.conn sc) :: acts)
          (PairState.init ctxDone)).handler = .selecting ∧
        closeCalls (handleConnectionRun clientConn dest (.dialReturns (.conn sc) :: acts)
          (PairState.init ctxDone)).trace = [] ∨
       (handleConnectionRun clientConn dest (.dialReturns (.conn sc) :: acts)
          (PairState.init ctxDone)).handler = .returned ∧
        closeCalls (handleConnectionRun clientConn dest (.dialReturns (.conn sc) :: acts)
          (PairState.init ctxDone)).trace = [sc, clientConn])) ∧
    (∀ s : PairState, s.handler = .selecting → s.serverConn = some sc →
      (∀ a s1, handleConnectionStep clientConn dest a s = some s1 →
        (s1.handler = .returned ↔
          (a = .selectCtxDone ∨ a = .selectDoneChan .toServer ∨
            a = .selectDoneChan .toClient))) ∧
      (∀ a s1, handleConnectionStep clientConn dest a s = some s1 → s1.handler ≠ .returned →
        s1.handler = .selecting ∧ closeCalls s1.trace = closeCalls s.trace) ∧
      ((handleConnectionStep clientConn dest .selectCtxDone s).isSome = s.ctxDone) ∧
      (∀ d, (handleConnectionStep clientConn dest (.selectDoneChan d) s).isSome
        = decide (s.copier d = .sending)) ∧
      (∀ a s1, handleConnectionStep clientConn dest a s = some s1 → s1.handler = .returned →
        closeCalls s1.trace = closeCalls s.trace ++ [sc, clientConn] ∧
        (∀ d, a ≠ .selectDoneChan d → s1.copier d = s.copier d))) ∧
    (∀ (d : Dir) (ctxDone : Bool),
      (handleConnectionRun clientConn dest
        [.dialReturns (.conn sc), .copyStarts d, .copyReturns d none, .selectDoneChan d]
        (PairState.init ctxDone)).handler = .returned ∧
      closeCalls (handleConnectionRun clientConn dest
        [.dialReturns (.conn sc), .copyStarts d, .copyReturns d none, .selectDoneChan d]
        (PairState.init ctxDone)).trace = [sc, clientConn] ∧
      (handleConnectionRun clientConn dest
        [.dialReturns (.conn sc), .copyStarts d, .copyReturns d none, .selectDoneChan d]
        (PairState.init ctxDone)).copier d.other = .spawned) ∧
    (∀ (ctxDone : Bool) (acts : List PairAction), (∀ a ∈ acts, a.isWake = false) →
      ((handleConnectionRun clientConn dest (.dialReturns (.conn sc) :: acts)
          (PairState.init ctxDone)).ctxDone = true →
        (handleConnectionRun clientConn dest
          (.dialReturns (.conn sc) :: (acts ++ [.selectCtxDone]))
          (PairState.init ctxDone)).handler = .returned ∧
        closeCalls (handleConnectionRun clientConn dest
          (.dialReturns (.conn sc) :: (acts ++ [.selectCtxDone]))
          (PairState.init ctxDone)).trace = [sc, clientConn] ∧
        (∀ d, (handleConnectionRun clientConn dest
            (.dialReturns (.conn sc) :: (acts ++ [.selectCtxDone]))
            (PairState.init ctxDone)).copier d
          = (handleConnectionRun clientConn dest (.dialReturns (.conn sc) :: acts)
            (PairState.init ctxDone)).copier d)) ∧
      (∀ d, (handleConnectionRun clientConn dest (.dialReturns (.conn sc) :: acts)
          (PairState.init ctxDone)).copier d = .sending →
        (handleConnectionRun clientConn dest
          (.dialReturns (.conn sc) :: (acts ++ [.selectDoneChan d]))
          (PairState.init ctxDone)).handler = .returned ∧
        closeCalls (handleConnectionRun clientConn dest
          (.dialReturns (.conn sc) :: (acts ++ [.selectDoneChan d]))
          (PairState.init ctxDone)).trace = [sc, clientConn] ∧
        (handleConnectionRun clientConn dest
            (.dialReturns (.conn sc) :: (acts ++ [.selectDoneChan d]))
            (PairState.init ctxDone)).copier d.other
          = (handleConnectionRun clientConn dest (.dialReturns (.conn sc) :: acts)
            (PairState.init ctxDone)).copier d.other)) := by
  have hwait : ∀ (ctxDone : Bool) (acts : List PairAction), (∀ a ∈ acts, a.isWake = false) →
      (handleConnectionRun clientConn dest acts
        (PairState.afterDial clientConn dest ctxDone sc)).handler = .selecting ∧
      closeCalls (handleConnectionRun clientConn dest acts
        (PairState.afterDial clientConn dest ctxDone sc)).trace = [] := by
    intro ctxDone acts ha
    have hsel := handleConnectionRun_waits clientConn dest acts
      (PairState.afterDial clientConn dest ctxDone sc) rfl ha
    obtain ⟨_, hcase⟩ := handleConnectionRun_afterDial clientConn dest ctxDone sc acts
    rcases hcase with ⟨_, hcl⟩ | ⟨hr, _⟩
    · exact ⟨hsel, hcl⟩
    · rw [hsel] at hr
      cases hr
  refine ⟨fun _ => rfl, ?_, ?_, ?_, ?_, ?_⟩
  · intro ctxDone acts ha
    rw [handleConnectionRun_dial_conn]
    exact hwait ctxDone acts ha
  · intro ctxDone acts
    rw [handleConnectionRun_dial_conn]
    exact handleConnectionRun_afterDial clientConn dest ctxDone sc acts
  · intro s hsel hsc
    refine ⟨?_, ?_, ?_, ?_, ?_⟩
    · intro a s1 h
      cases a with
      | cancel =>
        simp [handleConnectionStep] at h
        subst h
        simp [hsel]
      | dialReturns r => simp [handleConnectionStep, hsel] at h
      | copyStarts d =>
        unfold handleConnectionStep at h
        cases hc : s.copier d <;> simp [hc] at h
        subst h
        cases d <;> simp [PairState.setCopier, hsel]
      | copyReturns d err =>
        unfold handleConnectionStep at h
        cases hc : s.copier d <;> simp [hc] at h
        subst h
        cases d <;> simp [PairState.setCopier, hsel]
      | selectCtxDone =>
        unfold handleConnectionStep at h
        cases hx : s.ctxDone <;> simp [hsel, hx] at h
        subst h
        simp
      | selectDoneChan d =>
        unfold handleConnectionStep at h
        cases hc : s.copier d <;> simp [hsel, hc] at h
        subst h
        cases d <;> simp [PairState.setCopier]
    · intro a s1 h hne
      cases a with
      | cancel =>
        simp [handleConnectionStep] at h
        subst h
        simp [hsel]
      | dialReturns r => simp [handleConnectionStep, hsel] at h
      | copyStarts d =>
        unfold handleConnectionStep at h
        cases hc : s.copier d <;> simp [hc] at h
        subst h
        cases d <;> simp [PairState.setCopier, hsel, closeCalls_append, closeCalls_cons,
          closeCalls_nil]
      | copyReturns d err =>
        unfold handleConnectionStep at h
        cases hc : s.copier d <;> simp [hc] at h
        subst h
        cases d <;> simp [PairState.setCopier, hsel, closeCalls_append, closeCalls_copyDataTail]
      | selectCtxDone =>
        unfold handleConnectionStep at h
        cases hx : s.ctxDone <;> simp [hsel, hx] at h
        subst h
        simp at hne
      | selectDoneChan d =>
        unfold handleConnectionStep at h
        cases hc : s.copier d <;> simp [hsel, hc] at h
        subst h
        cases d <;> simp [PairState.setCopier] at hne
    · cases hx : s.ctxDone <;> simp [handleConnectionStep, hsel, hx]
    · intro d
      cases hc : s.copier d <;> simp [handleConnectionStep, hsel, hc]
    · intro a s1 h hr
      cases a with
      | cancel =>
        simp [handleConnectionStep] at h
        subst h
        simp [hsel] at hr
      | dialReturns r => simp [handleConnectionStep, hsel] at h
      | copyStarts d =>
        unfold handleConnectionStep at h
        cases hc : s.copier d <;> simp [hc] at h
        subst h
        cases d <;> simp [PairState.setCopier, hsel] at hr
      | copyReturns d err =>
        unfold handleConnectionStep at h
        cases hc : s.copier d <;> simp [hc] at h
        subst h
        cases d <;> simp [PairState.setCopier, hsel] at hr
      | selectCtxDone =>
        unfold handleConnectionStep at h
        cases hx : s.ctxDone <;> simp [hsel, hx] at h
        subst h
        simp [closeCalls_append, closeCalls_cons, closeCalls_nil, teardown, hsc,
          PairState.copier]
      | selectDoneChan d =>
        unfold handleConnectionStep at h
        cases hc : s.copier d <;> simp [hsel, hc] at h
        subst h
        refine ⟨?_, ?_⟩
        · cases d <;> simp [PairState.setCopier, closeCalls_append, closeCalls_cons,
            closeCalls_nil, teardown, hsc]
        · intro d1 hd1
          cases d <;> cases d1 <;> simp_all [PairState.setCopier, PairState.copier]
  · intro d ctxDone
    cases d <;>
      simp [handleConnectionRun, handleConnectionStep, PairState.init, PairState.copier,
          PairState.setCopier,
        copyDataTail_snd, closeCalls_append, closeCalls_cons, closeCalls_nil,
        closeCalls_copyDataTail, teardown, Dir.other]
  · intro ctxDone acts ha
    have happ : ∀ l : List PairAction, handleConnectionRun clientConn dest
          (.dialReturns (.conn sc) :: (acts ++ l)) (PairState.init ctxDone)
        = handleConnectionRun clientConn dest l
            (handleConnectionRun clientConn dest acts
              (PairState.afterDial clientConn dest ctxDone sc)) := by
      intro l
      rw [← List.cons_append, handleConnectionRun_append, handleConnectionRun_dial_conn]
    simp only [happ, handleConnectionRun_dial_conn]
    obtain ⟨hsel, hcl⟩ := hwait ctxDone acts ha
    obtain ⟨hsc, _⟩ := handleConnectionRun_afterDial clientConn dest ctxDone sc acts
    revert hsel hcl hsc
    generalize handleConnectionRun clientConn dest acts
      (PairState.afterDial clientConn dest ctxDone sc) = s
    intro hsel hcl hsc
    refine ⟨?_, ?_⟩
    · intro hctx
      obtain ⟨s1, h1, h2, h3, h4, h5⟩ := handleConnectionStep_wake_ctx clientConn dest s sc
        hsel hsc hctx
      have hrun : handleConnectionRun clientConn dest [.selectCtxDone] s = s1 := by
        simp only [handleConnectionRun, h1]
      rw [hrun]
      refine ⟨h2, by simpa [hcl] using h3, ?_⟩
      intro d
      cases d
      · exact h4
      · exact h5
    · intro d hd
      obtain ⟨s1, h1, h2, h3, _, h5⟩ := handleConnectionStep_wake_done clientConn dest s sc d
        hsel hsc hd
      have hrun : handleConnectionRun clientConn dest [.selectDoneChan d] s = s1 := by
        simp only [handleConnectionRun, h1]
      rw [hrun]
      exact ⟨h2, by simpa [hcl] using h3, h5⟩

theorem handlersStarted_nil : handlersStarted [] = [] := rfl

theorem handlersStarted_cons (e : Event) (es : List Event) :
    handlersStarted (e :: es) =
      (match e with
       | .goHandleConnection c d => [(c, d)]
       | _ => []) ++ handlersStarted es := by
  cases e <;> rfl

theorem handlersStarted_append (a b : List Event) :
    handlersStarted (a ++ b) = handlersStarted a ++ handlersStarted b := by
  simp [handlersStarted, List.filterMap_append]

/-- One statement keeps the handlers started, followed by the connection in
hand, equal to the connections accepted. -/
theorem dispatch_matches_accept_step (pf : PortForward) (o : Obs) (s : ListenerState)
    (h : handlersStarted s.trace ++ s.inHand.map (fun c => (c, destinationAddress pf))
      = (acceptedConns s.trace).map (fun c => (c, destinationAddress pf))) :
    handlersStarted (startPortForwardStep pf o s).trace ++
        (startPortForwardStep pf o s).inHand.map (fun c => (c, destinationAddress pf))
      = (acceptedConns (startPortForwardStep pf o s).trace).map
          (fun c => (c, destinationAddress pf)) := by
  obtain ⟨pc, tr⟩ := s
  cases pc with
  | start =>
    cases hl : o.listenErr <;>
      simpa [startPortForwardStep, hl, ListenerState.inHand, handlersStarted_append,
        handlersStarted_cons, handlersStarted_nil, acceptedConns_append, acceptedConns_cons,
        acceptedConns_nil] using h
  | loopTop =>
    cases hc : o.ctxDone <;>
      simpa [startPortForwardStep, hc, ListenerState.inHand, handlersStarted_append,
        handlersStarted_cons, handlersStarted_nil, acceptedConns_append, acceptedConns_cons,
        acceptedConns_nil] using h
  | accepting =>
    cases ha : o.accept with
    | conn c1 =>
      simp only [ListenerState.inHand, List.map_nil, List.append_nil] at h
      simp [startPortForwardStep, ha, ListenerState.inHand, handlersStarted_append,
        handlersStarted_cons, handlersStarted_nil, acceptedConns_append, acceptedConns_cons,
        acceptedConns_nil, h]
    | err e =>
      cases he : isClosedError e <;>
        simpa [startPortForwardStep, ha, he, ListenerState.inHand, handlersStarted_append,
          handlersStarted_cons, handlersStarted_nil, acceptedConns_append,
          acceptedConns_cons, acceptedConns_nil] using h
  | accepted c1 =>
    simp only [ListenerState.inHand, List.map_cons, List.map_nil] at h
    simp [startPortForwardStep, ListenerState.inHand, handlersStarted_append,
      handlersStarted_cons, handlersStarted_nil, acceptedConns_append, acceptedConns_cons,
      acceptedConns_nil, h]
  | returned => simpa [startPortForwardStep] using h
  | exited => simpa [startPortForwardStep] using h

theorem dispatch_matches_accept_run (pf : PortForward) (obs : List Obs) (s : ListenerState)
    (h : handlersStarted s.trace ++ s.inHand.map (fun c => (c, destinationAddress pf))
      = (acceptedConns s.trace).map (fun c => (c, destinationAddress pf))) :
    handlersStarted (startPortForwardRun pf obs s).trace ++
        (startPortForwardRun pf obs s).inHand.map (fun c => (c, destinationAddress pf))
      = (acceptedConns (startPortForwardRun pf obs s).trace).map
          (fun c => (c, destinationAddress pf)) := by
  induction obs generalizing s with
  | nil => exact h
  | cons o os ih => exact ih _ (dispatch_matches_accept_step pf o s h)

theorem dispatch_matches_accept (pf : PortForward) (obs : List Obs) :
    handlersStarted (startPortForwardRun pf obs ListenerState.init).trace ++
        (startPortForwardRun pf obs ListenerState.init).inHand.map
          (fun c => (c, pf.RemoteAddr ++ ":" ++ toString pf.RemotePort))
      = (acceptedConns (startPortForwardRun pf obs ListenerState.init).trace).map
          (fun c => (c, pf.RemoteAddr ++ ":" ++ toString pf.RemotePort)) :=
  dispatch_matches_accept_run pf obs ListenerState.init rfl

/-- C8: a rule goroutine calls `net.Listen` exactly once, with network "tcp"
and address ":" followed by the decimal rendering of `LocalPort`, and on
success enters its accept loop. Each iteration that accepts a connection
starts a handler for that connection at the next statement: at every moment
the handlers started are, in order, the connections that `Accept` returned
(the last one may still be in hand), each with the destination `RemoteAddr`,
unchanged, followed by ":" and the decimal rendering of `RemotePort`. A
handler calls `net.Dial` exactly once, with network "tcp" and the destination
it was given, whether the dial succeeds or fails. Replacing `ProtocolType` by
any other value changes nothing in the run. -/
theorem listen_and_dial_addresses (pf : PortForward) (obs : List Obs) (protocol : String) :
    listenCalls (startPortForwardRun pf obs ListenerState.init).trace =
      (match obs with
       | [] => []
       | _ :: _ => [("tcp", ":" ++ toString pf.LocalPort)]) ∧
    (∀ c d, Event.goHandleConnection c d ∈ (startPortForwardRun pf obs ListenerState.init).trace →
      d = pf.RemoteAddr ++ ":" ++ toString pf.RemotePort) ∧
    (∀ (c : ConnId) (tr : List Event) (o : Obs),
      startPortForwardStep pf o ⟨.accepted c, tr⟩ =
        ⟨.loopTop, tr ++ [.printf "PID %d: Accepted connection from %s",
          .goHandleConnection c (pf.RemoteAddr ++ ":" ++ toString pf.RemotePort)]⟩) ∧
    (∀ (c : ConnId) (d : String) (ctx : Bool) (r : DialResult) (acts : List PairAction),
      dialCalls (handleConnectionRun c d (.dialReturns r :: acts) (PairState.init ctx)).trace
        = [("tcp", d)]) ∧
    startPortForwardRun { pf with ProtocolType := protocol } obs ListenerState.init
      = startPortForwardRun pf obs ListenerState.init ∧
    sourcePort ⟨8080, "127.0.0.1", 9090, "tcp"⟩ = ":8080" ∧
    destinationAddress ⟨8080, "127.0.0.1", 9090, "udp"⟩ = "127.0.0.1:9090" ∧
    handlersStarted (startPortForwardRun pf obs ListenerState.init).trace ++
        (startPortForwardRun pf obs ListenerState.init).inHand.map
          (fun c => (c, pf.RemoteAddr ++ ":" ++ toString pf.RemotePort))
      = (acceptedConns (startPortForwardRun pf obs ListenerState.init).trace).map
          (fun c => (c, pf.RemoteAddr ++ ":" ++ toString pf.RemotePort)) ∧
    (∀ o : Obs, o.listenErr = none →
      startPortForwardStep pf o ListenerState.init =
        ⟨.loopTop, [.listen "tcp" (":" ++ toString pf.LocalPort),
          .printf "PID %d: Listening on %s and forwarding to %s",
          .signalNotify, .goSignalWatcher]⟩) ∧
    (∀ (tr : List Event) (o1 o2 o3 : Obs) (c : ConnId),
      o1.ctxDone = false → o2.accept = .conn c →
      startPortForwardRun pf [o1, o2, o3] ⟨.loopTop, tr⟩ =
        ⟨.loopTop, tr ++ [.accept (some c), .printf "PID %d: Accepted connection from %s",
          .goHandleConnection c (pf.RemoteAddr ++ ":" ++ toString pf.RemotePort)]⟩) ∧
    (∀ (c sc : ConnId) (d : String) (ctx : Bool),
      handleConnectionStep c d (.dialReturns (.conn sc)) (PairState.init ctx)
        = some ⟨ctx, .selecting, some sc, .spawned, .spawned,
            [.printf "PID %d: Handling connection to %s", .dial "tcp" d, .makeDoneChan,
             .goCopyData c sc, .goCopyData sc c]⟩) := by
  have hinit : AddrInv pf ListenerState.init := by
    simp [AddrInv, ListenerState.init, listenCalls_nil]
  obtain ⟨⟨h1, h2, _⟩, hp⟩ := AddrInv_run pf obs _ hinit
  refine ⟨?_, h2, ?_, ?_, startPortForwardRun_protocol pf protocol obs _, by decide, by decide,
    dispatch_matches_accept pf obs, ?_, ?_, fun _ _ _ _ => rfl⟩
  · cases obs with
    | nil => rfl
    | cons o os =>
      have hne := hp (by simp)
      rw [h1]
      cases hpc : (startPortForwardRun pf (o :: os) ListenerState.init).pc <;> simp
          [hpc] at hne ⊢ <;> rfl
  · intro c tr o
    rfl
  · intro c d ctx r acts
    cases r with
    | conn sc =>
      have hstep : handleConnectionRun c d (.dialReturns (.conn sc) :: acts) (PairState.init ctx)
          = handleConnectionRun c d acts
            { PairState.init ctx with
              handler := .selecting
              serverConn := some sc
              toClient := .spawned
              toServer := .spawned
              trace := (PairState.init ctx).trace ++
                [.printf "PID %d: Handling connection to %s",
                 .dial "tcp" d, .makeDoneChan,
                 .goCopyData c sc, .goCopyData sc c] } := rfl
      rw [hstep, handleConnectionRun_dialCalls c d acts _ (by simp)]
      rfl
    | err e =>
      have hstep : handleConnectionRun c d (.dialReturns (.err e) :: acts) (PairState.init ctx)
          = handleConnectionRun c d acts
            { PairState.init ctx with
              handler := .returned
              trace := (PairState.init ctx).trace ++
                [.printf "PID %d: Handling connection to %s",
                 .dial "tcp" d,
                 .printf "PID %d: Failed to connect to destination %s: %v",
                 .closeConn c] } := rfl
      rw [hstep, handleConnectionRun_dialCalls c d acts _ (by simp)]
      rfl
  · intro o ho
    simp [startPortForwardStep, ListenerState.init, ho, sourcePort, fmtInt]
  · intro tr o1 o2 o3 c h1 h2
    simp [startPortForwardRun, startPortForwardStep, h1, h2, destinationAddress, fmtInt]

end PortForwarder
